import Mathlib

/-!
# Lookup vindexes (go/vt/vtgate/vindexes/lookup.go)

A shallow embedding of the two lookup vindex variants, `LookupUnique` and
`LookupNonUnique`, and theorems about their `Map`, `MapResult`, `Verify`,
`Create`, `Update`, `Delete` and constructors.

Conventions of the embedding.

* A Go slice that is only ranged over or measured with `len` is a `List`; the
  nil slice and the empty slice are then the same list. A slice that a function
  RETURNS is an `Option (List _)`, `none` being the Go `nil`.
* A Go result pair `(x, err)` is a Lean pair whose second component is an
  `Option Error`, `none` being the nil error.
* A run-time panic (nil dereference, index out of range) is the `Run.panic`
  outcome.
* `ctx` and `vcursor` are borrowed per call and only handed on to the engine;
  together with the backing store behind them they are the world state `σ`,
  threaded through every engine call.
* Everything `lookup.go` uses but does not declare (package `sqltypes`, the
  engine `lookupInternal` and the option-map helpers) is a parameter.
-/

namespace vindexes

/-! ## Data model -/

/-- A Go byte slice. -/
abbrev Bytes := List Nat

/-- A Go error value, identified by its message. -/
structure Error where
  msg : String
  deriving DecidableEq, Repr

/-- The run-time panics that the indexing and dereferencing in `lookup.go` can raise. -/
inductive Panic where
  | nilDereference
  | indexOutOfRange (index length : Nat)
  deriving DecidableEq, Repr

/-- Outcome of running a function body: it returns, or it panics. -/
inductive Run (α : Type) where
  | ret (a : α)
  | panic (p : Panic)
  deriving DecidableEq, Repr

/-- Modelled from the spec: the enum `vtgatepb.CommitOrder` is generated code outside the
given sources; the spec names the commit orders normal, pre and post, and the generated enum
adds autocommit. -/
inductive CommitOrder where
  | NORMAL
  | PRE
  | POST
  | AUTOCOMMIT
  deriving DecidableEq, Repr

/-- Modelled from the spec: `topodatapb.KeyRange` is generated code outside the given
sources; a key range has a start and an end bound, and the literal `&topodatapb.KeyRange{}`
has both empty (the full range). -/
structure KeyRange where
  Start : Bytes
  End : Bytes
  deriving DecidableEq, Repr

/-- Modelled from the spec: package `key` is outside the given sources; these are the four
shard destinations of the spec's data model, under the names `lookup.go` uses. -/
inductive ShardDestination where
  | DestinationNone
  | DestinationKeyspaceID (ksid : Bytes)
  | DestinationKeyspaceIDs (ksids : List Bytes)
  | DestinationKeyRange (KeyRange : KeyRange)
  deriving DecidableEq, Repr

/-- The part of package `sqltypes` that `lookup.go` uses, over an arbitrary type of values:
`v.IsNull()`, `v.ToBytes()`, the `%v` rendering of a value (its `String()`), and
`sqltypes.MakeTrusted(sqltypes.VarBinary, b)`. -/
structure Sqltypes (Value : Type) where
  IsNull : Value → Bool
  ToBytes : Value → Bytes × Option Error
  String : Value → String
  MakeTrustedVarBinary : Bytes → Value

/-- The part of `sqltypes.Result` that `lookup.go` reads: its rows. -/
structure Result (Value : Type) where
  Rows : List (List Value)
  deriving DecidableEq, Repr

/-- A Go `map[string]string`, only ever handed on to the helpers. -/
abbrev ParamMap := List (String × String)

/-- Modelled from the spec: the struct `lookupInternal` is declared in a file outside the
given sources. These are the fields `lookup.go` reads (`Table`, `Autocommit`, `IgnoreNulls`,
`BatchLookup`, `sel`) and the remaining configuration the spec lists for the engine (from
columns, to column, multi-shard autocommit, upsert). -/
structure lookupInternal where
  Table : String
  FromColumns : List String
  To : String
  Autocommit : Bool
  MultiShardAutocommit : Bool
  Upsert : Bool
  IgnoreNulls : Bool
  BatchLookup : Bool
  sel : String
  deriving DecidableEq, Repr

/-- The zero value of `lookupInternal`, as in a freshly allocated vindex. -/
def lookupInternal.zero : lookupInternal :=
  { Table := "", FromColumns := [], To := "", Autocommit := false,
    MultiShardAutocommit := false, Upsert := false, IgnoreNulls := false,
    BatchLookup := false, sel := "" }

/-- The methods of the engine `lookupInternal` that `lookup.go` calls with a context and a
cursor. Each takes the engine value, the world state and the call's arguments in source order,
and returns the Go result together with the new world state. -/
structure lookupInternalMethods (Value σ : Type) where
  Lookup : lookupInternal → σ → List Value → CommitOrder →
    (List (Option (Result Value)) × Option Error) × σ
  Verify : lookupInternal → σ → List Value → List Value →
    (Option (List Bool) × Option Error) × σ
  Create : lookupInternal → σ → List (List Value) → List Value → Bool → Option Error × σ
  Delete : lookupInternal → σ → List (List Value) → Value → CommitOrder → Option Error × σ
  Update : lookupInternal → σ → List Value → Bytes → Value → List Value → Option Error × σ
  query : lookupInternal → String × List String

/-- The struct `commonConfig` returned by `parseCommonConfig`: the two fields read by the
constructors. -/
structure commonConfig where
  autocommit : Bool
  multiShardAutocommit : Bool
  deriving DecidableEq, Repr

/-- The construction-time helpers that `lookup.go` calls but does not declare:
`lookupCommonParams`, `FindUnknownParams`, `parseCommonConfig`, `boolFromMap` and the engine's
`Init` (which writes the engine through its pointer receiver, hence returns the new engine). -/
structure Helpers where
  lookupCommonParams : List String
  FindUnknownParams : ParamMap → List String → List String
  parseCommonConfig : ParamMap → commonConfig × Option Error
  boolFromMap : ParamMap → String → Bool × Option Error
  Init : lookupInternal → ParamMap → Bool → Bool → Bool → lookupInternal × Option Error

def lookupParamNoVerify : String := "no_verify"

def lookupParamWriteOnly : String := "write_only"

/-- The package variable `lookupParams`. -/
def lookupParams (H : Helpers) : List String :=
  (([] : List String) ++ H.lookupCommonParams) ++ [lookupParamNoVerify, lookupParamWriteOnly]

/-- The struct `LookupNonUnique`. -/
structure LookupNonUnique where
  name : String
  writeOnly : Bool
  noVerify : Bool
  lkp : lookupInternal
  unknownParams : List String
  deriving DecidableEq, Repr

/-- The struct `LookupUnique`. -/
structure LookupUnique where
  name : String
  writeOnly : Bool
  noVerify : Bool
  lkp : lookupInternal
  unknownParams : List String
  deriving DecidableEq, Repr

/-- The result type of `Map` and `MapResult`. -/
abbrev Destinations := Option (List ShardDestination) × Option Error

/-! ## Shared loops -/

/-- The loop `for range ids { out = append(out, key.DestinationKeyRange{KeyRange: &topodatapb.KeyRange{}}) }`
started from the empty `out`. -/
def appendKeyRanges {α : Type} (ids : List α) : List ShardDestination :=
  ids.foldl (fun out _ => out ++ [ShardDestination.DestinationKeyRange ⟨[], []⟩]) []

/-- The loop `out := make([]bool, len(ids)); for i := range ids { out[i] = true }`. -/
def allTrue {α : Type} (ids : List α) : List Bool :=
  (List.range ids.length).foldl (fun out i => out.set i true) (List.replicate ids.length false)

/-- The function `ksidsToValues`. -/
def ksidsToValues {Value : Type} (S : Sqltypes Value) (ksids : List Bytes) : List Value :=
  ksids.foldl (fun values ksid => values ++ [S.MakeTrustedVarBinary ksid]) []

/-! ## LookupNonUnique -/

def LookupNonUnique.GetCommitOrder (_ln : LookupNonUnique) : CommitOrder :=
  CommitOrder.NORMAL

def LookupNonUnique.AllowBatch (ln : LookupNonUnique) : Bool :=
  ln.lkp.BatchLookup

def LookupNonUnique.AutoCommitEnabled (ln : LookupNonUnique) : Bool :=
  ln.lkp.Autocommit

def LookupNonUnique.Cost (_ln : LookupNonUnique) : Int :=
  20

def LookupNonUnique.IsUnique (_ln : LookupNonUnique) : Bool :=
  false

def LookupNonUnique.NeedsVCursor (_ln : LookupNonUnique) : Bool :=
  true

/-- The inner loop of `LookupNonUnique.MapResult` over `result.Rows`, with the accumulated
`ksids`; an error of `row[0].ToBytes()` ends it. -/
def LookupNonUnique.MapResult.rows {Value : Type} (S : Sqltypes Value) :
    List (List Value) → List Bytes → Run (List Bytes × Option Error)
  | [], ksids => Run.ret (ksids, none)
  | row :: rest, ksids =>
    match row with
    | [] => Run.panic (Panic.indexOutOfRange 0 0)
    | v :: _ =>
      match S.ToBytes v with
      | (_, some err) => Run.ret (ksids, some err)
      | (rowBytes, none) => LookupNonUnique.MapResult.rows S rest (ksids ++ [rowBytes])

/-- The outer loop of `LookupNonUnique.MapResult` over `results`, with the accumulated `out`. -/
def LookupNonUnique.MapResult.loop {Value : Type} (S : Sqltypes Value) :
    List (Option (Result Value)) → List ShardDestination → Run Destinations
  | [], out => Run.ret (some out, none)
  | result :: rest, out =>
    match result with
    | none => Run.panic Panic.nilDereference
    | some r =>
      if r.Rows.length = 0 then
        LookupNonUnique.MapResult.loop S rest (out ++ [ShardDestination.DestinationNone])
      else
        match LookupNonUnique.MapResult.rows S r.Rows [] with
        | Run.panic p => Run.panic p
        | Run.ret (_, some err) => Run.ret (none, some err)
        | Run.ret (ksids, none) =>
          LookupNonUnique.MapResult.loop S rest
            (out ++ [ShardDestination.DestinationKeyspaceIDs ksids])

def LookupNonUnique.MapResult {Value : Type} (S : Sqltypes Value) (ln : LookupNonUnique)
    (ids : List Value) (results : List (Option (Result Value))) : Run Destinations :=
  if ln.writeOnly then
    Run.ret (some (appendKeyRanges ids), none)
  else
    LookupNonUnique.MapResult.loop S results []

def LookupNonUnique.Map {Value σ : Type} (S : Sqltypes Value) (E : lookupInternalMethods Value σ)
    (ln : LookupNonUnique) (vcursor : σ) (ids : List Value) : Run Destinations × σ :=
  if ln.writeOnly then
    (Run.ret (some (appendKeyRanges ids), none), vcursor)
  else if ids.length = 1 ∧ (ids.head?.map S.IsNull = some true) ∧ ln.lkp.IgnoreNulls = true then
    (Run.ret (some (appendKeyRanges ids), none), vcursor)
  else
    match E.Lookup ln.lkp vcursor ids CommitOrder.NORMAL with
    | ((_, some err), vcursor1) => (Run.ret (none, some err), vcursor1)
    | ((results, none), vcursor1) => (LookupNonUnique.MapResult S ln ids results, vcursor1)

def LookupNonUnique.Verify {Value σ : Type} (S : Sqltypes Value)
    (E : lookupInternalMethods Value σ) (ln : LookupNonUnique) (vcursor : σ)
    (ids : List Value) (ksids : List Bytes) : (Option (List Bool) × Option Error) × σ :=
  if ln.writeOnly || ln.noVerify then
    ((some (allTrue ids), none), vcursor)
  else
    E.Verify ln.lkp vcursor ids (ksidsToValues S ksids)

def LookupNonUnique.Create {Value σ : Type} (S : Sqltypes Value)
    (E : lookupInternalMethods Value σ) (ln : LookupNonUnique) (vcursor : σ)
    (rowsColValues : List (List Value)) (ksids : List Bytes) (ignoreMode : Bool) :
    Option Error × σ :=
  E.Create ln.lkp vcursor rowsColValues (ksidsToValues S ksids) ignoreMode

def LookupNonUnique.Delete {Value σ : Type} (S : Sqltypes Value)
    (E : lookupInternalMethods Value σ) (ln : LookupNonUnique) (vcursor : σ)
    (rowsColValues : List (List Value)) (ksid : Bytes) : Option Error × σ :=
  E.Delete ln.lkp vcursor rowsColValues (S.MakeTrustedVarBinary ksid) CommitOrder.NORMAL

def LookupNonUnique.Update {Value σ : Type} (S : Sqltypes Value)
    (E : lookupInternalMethods Value σ) (ln : LookupNonUnique) (vcursor : σ)
    (oldValues : List Value) (ksid : Bytes) (newValues : List Value) : Option Error × σ :=
  E.Update ln.lkp vcursor oldValues ksid (S.MakeTrustedVarBinary ksid) newValues

def LookupNonUnique.IsBackfilling (ln : LookupNonUnique) : Bool :=
  ln.writeOnly

def LookupNonUnique.Query {Value σ : Type} (E : lookupInternalMethods Value σ)
    (ln : LookupNonUnique) : String × List String :=
  E.query ln.lkp

def LookupNonUnique.UnknownParams (ln : LookupNonUnique) : List String :=
  ln.unknownParams

/-- The method `String` of `LookupNonUnique`: the name of the vindex. -/
def LookupNonUnique.String (ln : LookupNonUnique) : String :=
  ln.name

/-- The constructor `newLookup`; the returned `Vindex` is `none` for the Go `nil`. -/
def newLookup (H : Helpers) (name : String) (m : ParamMap) :
    Option LookupNonUnique × Option Error :=
  let lookup : LookupNonUnique :=
    { name := name, writeOnly := false, noVerify := false, lkp := lookupInternal.zero,
      unknownParams := H.FindUnknownParams m (lookupParams H) }
  match H.parseCommonConfig m with
  | (_, some err) => (none, some err)
  | (cc, none) =>
    match H.boolFromMap m lookupParamWriteOnly with
    | (_, some err) => (none, some err)
    | (writeOnly, none) =>
      match H.boolFromMap m lookupParamNoVerify with
      | (_, some err) => (none, some err)
      | (noVerify, none) =>
        let upsert := cc.autocommit || cc.multiShardAutocommit
        match H.Init lookup.lkp m cc.autocommit upsert cc.multiShardAutocommit with
        | (_, some err) => (none, some err)
        | (lkp, none) =>
          (some { lookup with writeOnly := writeOnly, noVerify := noVerify, lkp := lkp }, none)

/-! ## LookupUnique -/

def LookupUnique.GetCommitOrder (_lu : LookupUnique) : CommitOrder :=
  CommitOrder.NORMAL

def LookupUnique.AllowBatch (lu : LookupUnique) : Bool :=
  lu.lkp.BatchLookup

def LookupUnique.AutoCommitEnabled (lu : LookupUnique) : Bool :=
  lu.lkp.Autocommit

/-- The constructor `newLookupUnique`; the returned `Vindex` is `none` for the Go `nil`. -/
def newLookupUnique (H : Helpers) (name : String) (m : ParamMap) :
    Option LookupUnique × Option Error :=
  let lu : LookupUnique :=
    { name := name, writeOnly := false, noVerify := false, lkp := lookupInternal.zero,
      unknownParams := H.FindUnknownParams m (lookupParams H) }
  match H.parseCommonConfig m with
  | (_, some err) => (none, some err)
  | (cc, none) =>
    match H.boolFromMap m lookupParamWriteOnly with
    | (_, some err) => (none, some err)
    | (writeOnly, none) =>
      match H.boolFromMap m lookupParamNoVerify with
      | (_, some err) => (none, some err)
      | (noVerify, none) =>
        match H.Init lu.lkp m cc.autocommit false cc.multiShardAutocommit with
        | (_, some err) => (none, some err)
        | (lkp, none) =>
          (some { lu with writeOnly := writeOnly, noVerify := noVerify, lkp := lkp }, none)

def LookupUnique.Cost (_lu : LookupUnique) : Int :=
  10

def LookupUnique.IsUnique (_lu : LookupUnique) : Bool :=
  true

def LookupUnique.NeedsVCursor (_lu : LookupUnique) : Bool :=
  true

/-- The error built by
`fmt.Errorf("Lookup.Map: unexpected multiple results from vindex %s: %v", lu.lkp.Table, ids[i])`. -/
def LookupUnique.MapResult.errorf {Value : Type} (S : Sqltypes Value) (lu : LookupUnique)
    (id : Value) : Error :=
  ⟨"Lookup.Map: unexpected multiple results from vindex " ++ lu.lkp.Table ++ ": " ++ S.String id⟩

/-- The loop of `LookupUnique.MapResult` over `results`, at index `i` with the accumulated
`out`. -/
def LookupUnique.MapResult.loop {Value : Type} (S : Sqltypes Value) (lu : LookupUnique)
    (ids : List Value) : Nat → List (Option (Result Value)) → List ShardDestination →
    Run Destinations
  | _, [], out => Run.ret (some out, none)
  | i, result :: rest, out =>
    match result with
    | none => Run.panic Panic.nilDereference
    | some r =>
      match r.Rows with
      | [] =>
        LookupUnique.MapResult.loop S lu ids (i + 1) rest (out ++ [ShardDestination.DestinationNone])
      | [row] =>
        match row with
        | [] => Run.panic (Panic.indexOutOfRange 0 0)
        | v :: _ =>
          match S.ToBytes v with
          | (_, some err) => Run.ret (none, some err)
          | (rowBytes, none) =>
            LookupUnique.MapResult.loop S lu ids (i + 1) rest
              (out ++ [ShardDestination.DestinationKeyspaceID rowBytes])
      | _ :: _ :: _ =>
        match ids[i]? with
        | none => Run.panic (Panic.indexOutOfRange i ids.length)
        | some id => Run.ret (none, some (LookupUnique.MapResult.errorf S lu id))

def LookupUnique.MapResult {Value : Type} (S : Sqltypes Value) (lu : LookupUnique)
    (ids : List Value) (results : List (Option (Result Value))) : Run Destinations :=
  LookupUnique.MapResult.loop S lu ids 0 results []

def LookupUnique.Map {Value σ : Type} (S : Sqltypes Value) (E : lookupInternalMethods Value σ)
    (lu : LookupUnique) (vcursor : σ) (ids : List Value) : Run Destinations × σ :=
  if lu.writeOnly then
    (Run.ret (some (appendKeyRanges ids), none), vcursor)
  else
    match E.Lookup lu.lkp vcursor ids CommitOrder.NORMAL with
    | ((_, some err), vcursor1) => (Run.ret (none, some err), vcursor1)
    | ((results, none), vcursor1) => (LookupUnique.MapResult S lu ids results, vcursor1)

def LookupUnique.Verify {Value σ : Type} (S : Sqltypes Value)
    (E : lookupInternalMethods Value σ) (lu : LookupUnique) (vcursor : σ)
    (ids : List Value) (ksids : List Bytes) : (Option (List Bool) × Option Error) × σ :=
  if lu.writeOnly || lu.noVerify then
    ((some (allTrue ids), none), vcursor)
  else
    E.Verify lu.lkp vcursor ids (ksidsToValues S ksids)

def LookupUnique.Create {Value σ : Type} (S : Sqltypes Value)
    (E : lookupInternalMethods Value σ) (lu : LookupUnique) (vcursor : σ)
    (rowsColValues : List (List Value)) (ksids : List Bytes) (ignoreMode : Bool) :
    Option Error × σ :=
  E.Create lu.lkp vcursor rowsColValues (ksidsToValues S ksids) ignoreMode

def LookupUnique.Update {Value σ : Type} (S : Sqltypes Value)
    (E : lookupInternalMethods Value σ) (lu : LookupUnique) (vcursor : σ)
    (oldValues : List Value) (ksid : Bytes) (newValues : List Value) : Option Error × σ :=
  E.Update lu.lkp vcursor oldValues ksid (S.MakeTrustedVarBinary ksid) newValues

def LookupUnique.Delete {Value σ : Type} (S : Sqltypes Value)
    (E : lookupInternalMethods Value σ) (lu : LookupUnique) (vcursor : σ)
    (rowsColValues : List (List Value)) (ksid : Bytes) : Option Error × σ :=
  E.Delete lu.lkp vcursor rowsColValues (S.MakeTrustedVarBinary ksid) CommitOrder.NORMAL

def LookupUnique.IsBackfilling (lu : LookupUnique) : Bool :=
  lu.writeOnly

def LookupUnique.LookupQuery (lu : LookupUnique) : String × Option Error :=
  (lu.lkp.sel, none)

def LookupUnique.Query {Value σ : Type} (E : lookupInternalMethods Value σ)
    (lu : LookupUnique) : String × List String :=
  E.query lu.lkp

def LookupUnique.UnknownParams (ln : LookupUnique) : List String :=
  ln.unknownParams

/-- The method `String` of `LookupUnique`: the name of the vindex. -/
def LookupUnique.String (lu : LookupUnique) : String :=
  lu.name

/-! ## Serialisation and the operations as state transitions -/

/-- The method `MarshalJSON` of `LookupNonUnique`; `jsonMarshal` stands for `json.Marshal`
on the engine, which is handed over by value. -/
def LookupNonUnique.MarshalJSON (jsonMarshal : lookupInternal → Option Bytes × Option Error)
    (ln : LookupNonUnique) : Option Bytes × Option Error :=
  jsonMarshal ln.lkp

/-- The method `MarshalJSON` of `LookupUnique`. -/
def LookupUnique.MarshalJSON (jsonMarshal : lookupInternal → Option Bytes × Option Error)
    (lu : LookupUnique) : Option Bytes × Option Error :=
  jsonMarshal lu.lkp

/-- The methods of `LookupNonUnique`, with their arguments. -/
inductive NonUniqueOperation (Value : Type) where
  | GetCommitOrder
  | AllowBatch
  | AutoCommitEnabled
  | String
  | Cost
  | IsUnique
  | NeedsVCursor
  | Map (ids : List Value)
  | MapResult (ids : List Value) (results : List (Option (Result Value)))
  | Verify (ids : List Value) (ksids : List Bytes)
  | Create (rowsColValues : List (List Value)) (ksids : List Bytes) (ignoreMode : Bool)
  | Delete (rowsColValues : List (List Value)) (ksid : Bytes)
  | Update (oldValues : List Value) (ksid : Bytes) (newValues : List Value)
  | MarshalJSON
  | IsBackfilling
  | Query
  | UnknownParams

/-- The methods of `LookupUnique`, with their arguments. -/
inductive UniqueOperation (Value : Type) where
  | GetCommitOrder
  | AllowBatch
  | AutoCommitEnabled
  | String
  | Cost
  | IsUnique
  | NeedsVCursor
  | Map (ids : List Value)
  | MapResult (ids : List Value) (results : List (Option (Result Value)))
  | Verify (ids : List Value) (ksids : List Bytes)
  | Create (rowsColValues : List (List Value)) (ksids : List Bytes) (ignoreMode : Bool)
  | Update (oldValues : List Value) (ksid : Bytes) (newValues : List Value)
  | Delete (rowsColValues : List (List Value)) (ksid : Bytes)
  | MarshalJSON
  | IsBackfilling
  | LookupQuery
  | Query
  | UnknownParams

/-- The receiver and the world after one method call on a `LookupNonUnique`. No method body
assigns to a field of the receiver. The methods of the engine are called on the field `lkp` in
place, so where the body reaches such a call the engine may have rewritten `lkp`:
`engineWrites` is what it leaves there. The world is the one the method returns. -/
def LookupNonUnique.perform {Value σ : Type} (S : Sqltypes Value)
    (E : lookupInternalMethods Value σ) (engineWrites : lookupInternal → σ → lookupInternal)
    (ln : LookupNonUnique) (vcursor : σ) : NonUniqueOperation Value → LookupNonUnique × σ
  | NonUniqueOperation.GetCommitOrder => (ln, vcursor)
  | NonUniqueOperation.AllowBatch => (ln, vcursor)
  | NonUniqueOperation.AutoCommitEnabled => (ln, vcursor)
  | NonUniqueOperation.String => (ln, vcursor)
  | NonUniqueOperation.Cost => (ln, vcursor)
  | NonUniqueOperation.IsUnique => (ln, vcursor)
  | NonUniqueOperation.NeedsVCursor => (ln, vcursor)
  | NonUniqueOperation.Map ids =>
    if ln.writeOnly then (ln, vcursor)
    else if ids.length = 1 ∧ (ids.head?.map S.IsNull = some true) ∧ ln.lkp.IgnoreNulls = true then
      (ln, vcursor)
    else
      ({ ln with lkp := engineWrites ln.lkp vcursor }, (LookupNonUnique.Map S E ln vcursor ids).2)
  | NonUniqueOperation.MapResult _ _ => (ln, vcursor)
  | NonUniqueOperation.Verify ids ksids =>
    if ln.writeOnly || ln.noVerify then (ln, vcursor)
    else
      ({ ln with lkp := engineWrites ln.lkp vcursor },
        (LookupNonUnique.Verify S E ln vcursor ids ksids).2)
  | NonUniqueOperation.Create rowsColValues ksids ignoreMode =>
    ({ ln with lkp := engineWrites ln.lkp vcursor },
      (LookupNonUnique.Create S E ln vcursor rowsColValues ksids ignoreMode).2)
  | NonUniqueOperation.Delete rowsColValues ksid =>
    ({ ln with lkp := engineWrites ln.lkp vcursor },
      (LookupNonUnique.Delete S E ln vcursor rowsColValues ksid).2)
  | NonUniqueOperation.Update oldValues ksid newValues =>
    ({ ln with lkp := engineWrites ln.lkp vcursor },
      (LookupNonUnique.Update S E ln vcursor oldValues ksid newValues).2)
  | NonUniqueOperation.MarshalJSON => (ln, vcursor)
  | NonUniqueOperation.IsBackfilling => (ln, vcursor)
  | NonUniqueOperation.Query => ({ ln with lkp := engineWrites ln.lkp vcursor }, vcursor)
  | NonUniqueOperation.UnknownParams => (ln, vcursor)

/-- The receiver and the world after one method call on a `LookupUnique`, as for
`LookupNonUnique.perform`. -/
def LookupUnique.perform {Value σ : Type} (S : Sqltypes Value)
    (E : lookupInternalMethods Value σ) (engineWrites : lookupInternal → σ → lookupInternal)
    (lu : LookupUnique) (vcursor : σ) : UniqueOperation Value → LookupUnique × σ
  | UniqueOperation.GetCommitOrder => (lu, vcursor)
  | UniqueOperation.AllowBatch => (lu, vcursor)
  | UniqueOperation.AutoCommitEnabled => (lu, vcursor)
  | UniqueOperation.String => (lu, vcursor)
  | UniqueOperation.Cost => (lu, vcursor)
  | UniqueOperation.IsUnique => (lu, vcursor)
  | UniqueOperation.NeedsVCursor => (lu, vcursor)
  | UniqueOperation.Map ids =>
    if lu.writeOnly then (lu, vcursor)
    else
      ({ lu with lkp := engineWrites lu.lkp vcursor }, (LookupUnique.Map S E lu vcursor ids).2)
  | UniqueOperation.MapResult _ _ => (lu, vcursor)
  | UniqueOperation.Verify ids ksids =>
    if lu.writeOnly || lu.noVerify then (lu, vcursor)
    else
      ({ lu with lkp := engineWrites lu.lkp vcursor },
        (LookupUnique.Verify S E lu vcursor ids ksids).2)
  | UniqueOperation.Create rowsColValues ksids ignoreMode =>
    ({ lu with lkp := engineWrites lu.lkp vcursor },
      (LookupUnique.Create S E lu vcursor rowsColValues ksids ignoreMode).2)
  | UniqueOperation.Update oldValues ksid newValues =>
    ({ lu with lkp := engineWrites lu.lkp vcursor },
      (LookupUnique.Update S E lu vcursor oldValues ksid newValues).2)
  | UniqueOperation.Delete rowsColValues ksid =>
    ({ lu with lkp := engineWrites lu.lkp vcursor },
      (LookupUnique.Delete S E lu vcursor rowsColValues ksid).2)
  | UniqueOperation.MarshalJSON => (lu, vcursor)
  | UniqueOperation.IsBackfilling => (lu, vcursor)
  | UniqueOperation.LookupQuery => (lu, vcursor)
  | UniqueOperation.Query => ({ lu with lkp := engineWrites lu.lkp vcursor }, vcursor)
  | UniqueOperation.UnknownParams => (lu, vcursor)

/-- The receiver and the world after a sequence of method calls on a `LookupNonUnique`. -/
def LookupNonUnique.performAll {Value σ : Type} (S : Sqltypes Value)
    (E : lookupInternalMethods Value σ) (engineWrites : lookupInternal → σ → lookupInternal) :
    List (NonUniqueOperation Value) → LookupNonUnique × σ → LookupNonUnique × σ
  | [], state => state
  | op :: ops, state =>
    LookupNonUnique.performAll S E engineWrites ops
      (LookupNonUnique.perform S E engineWrites state.1 state.2 op)

/-- The receiver and the world after a sequence of method calls on a `LookupUnique`. -/
def LookupUnique.performAll {Value σ : Type} (S : Sqltypes Value)
    (E : lookupInternalMethods Value σ) (engineWrites : lookupInternal → σ → lookupInternal) :
    List (UniqueOperation Value) → LookupUnique × σ → LookupUnique × σ
  | [], state => state
  | op :: ops, state =>
    LookupUnique.performAll S E engineWrites ops
      (LookupUnique.perform S E engineWrites state.1 state.2 op)

/-! ## Sample collaborators

Concrete stand-ins for the parameters, used to evaluate the model on explicit inputs. -/

/-- A few `sqltypes` values: the NULL value, a 64-bit integer, a binary string and an
expression (the one kind of value whose `ToBytes` fails). -/
inductive SampleValue where
  | NULL
  | INT64 (n : Nat)
  | VARBINARY (val : Bytes)
  | EXPRESSION
  deriving DecidableEq, Repr

/-- The sample `sqltypes`: an integer converts to its decimal digits and renders as
`INT64(n)`. -/
def sampleSqltypes : Sqltypes SampleValue where
  IsNull v :=
    match v with
    | SampleValue.NULL => true
    | _ => false
  ToBytes v :=
    match v with
    | SampleValue.NULL => ([], none)
    | SampleValue.INT64 n => ((Nat.repr n).toList.map Char.toNat, none)
    | SampleValue.VARBINARY val => (val, none)
    | SampleValue.EXPRESSION => ([], some ⟨"expression cannot be converted to bytes"⟩)
  String v :=
    match v with
    | SampleValue.NULL => "NULL"
    | SampleValue.INT64 n => "INT64(" ++ Nat.repr n ++ ")"
    | SampleValue.VARBINARY val => "VARBINARY(" ++ String.mk (val.map Char.ofNat) ++ ")"
    | SampleValue.EXPRESSION => "EXPRESSION()"
  MakeTrustedVarBinary val := SampleValue.VARBINARY val

/-- A stub engine over a world state that counts the engine calls made so far: every call
answers with the given results, verdicts and error, whatever its arguments. -/
def stubEngine (results : List (Option (Result SampleValue))) (verdicts : Option (List Bool))
    (err : Option Error) : lookupInternalMethods SampleValue Nat where
  Lookup _ calls _ _ := ((results, err), calls + 1)
  Verify _ calls _ _ := ((verdicts, err), calls + 1)
  Create _ calls _ _ _ := (err, calls + 1)
  Delete _ calls _ _ _ := (err, calls + 1)
  Update _ calls _ _ _ _ := (err, calls + 1)
  query lkp := (lkp.sel, [])

/-- An engine every call of which fails. -/
def failingEngine : lookupInternalMethods SampleValue Nat :=
  stubEngine [] none (some ⟨"executor failure"⟩)

/-- A unique vindex named `name` over the table `table`. -/
def sampleUnique (name table : String) (writeOnly noVerify : Bool) : LookupUnique :=
  { name := name, writeOnly := writeOnly, noVerify := noVerify,
    lkp := { lookupInternal.zero with Table := table }, unknownParams := [] }

/-- A non-unique vindex named `name` over the table `table`. -/
def sampleNonUnique (name table : String) (writeOnly noVerify ignoreNulls : Bool) :
    LookupNonUnique :=
  { name := name, writeOnly := writeOnly, noVerify := noVerify,
    lkp := { lookupInternal.zero with Table := table, IgnoreNulls := ignoreNulls },
    unknownParams := [] }

/-- A sample `boolFromMap`: an absent key is false, and a present one must read `true` or
`false`. -/
def sampleBoolFromMap (m : ParamMap) (key : String) : Bool × Option Error :=
  match m.lookup key with
  | none => (false, none)
  | some val =>
    if val = "true" then (true, none)
    else if val = "false" then (false, none)
    else (false, some ⟨key ++ " value must be true or false: " ++ val⟩)

/-- Sample construction helpers: the common configuration is the two autocommit options, an
unknown parameter is a key outside the given list, and `Init` stores the table, the to column
and the three flags it is handed. -/
def sampleHelpers : Helpers where
  lookupCommonParams :=
    ["autocommit", "multi_shard_autocommit", "batch_lookup", "from", "ignore_nulls", "table", "to"]
  FindUnknownParams m params := (m.map Prod.fst).filter (fun k => !params.contains k)
  parseCommonConfig m :=
    match sampleBoolFromMap m "autocommit" with
    | (_, some err) => (⟨false, false⟩, some err)
    | (autocommit, none) =>
      match sampleBoolFromMap m "multi_shard_autocommit" with
      | (_, some err) => (⟨false, false⟩, some err)
      | (multiShardAutocommit, none) => (⟨autocommit, multiShardAutocommit⟩, none)
  boolFromMap := sampleBoolFromMap
  Init lkp m autocommit upsert multiShardAutocommit :=
    ({ lkp with Table := (m.lookup "table").getD "", To := (m.lookup "to").getD "",
                Autocommit := autocommit, Upsert := upsert,
                MultiShardAutocommit := multiShardAutocommit }, none)

/-! ## Vocabulary of the statements -/

/-- The row has a first column, and that column converts to bytes. -/
def rowConverts {Value : Type} (S : Sqltypes Value) : List Value → Bool
  | [] => false
  | v :: _ => (S.ToBytes v).2.isNone

/-- The result set is present (not a nil pointer) and each of its rows has a first column
that converts to bytes. -/
def resultConverts {Value : Type} (S : Sqltypes Value) : Option (Result Value) → Bool
  | none => false
  | some r => r.Rows.all (rowConverts S)

/-- Number of rows of a result set. -/
def rowCount {Value : Type} : Option (Result Value) → Nat
  | none => 0
  | some r => r.Rows.length

/-- Position of the first result set that holds more than one row, if there is one. -/
def firstMultiple {Value : Type} : List (Option (Result Value)) → Option Nat
  | [] => none
  | res :: rest => if 1 < rowCount res then some 0 else (firstMultiple rest).map (· + 1)

/-- The bytes of the first column of a row (empty when there is no such column). -/
def firstColumnBytes {Value : Type} (S : Sqltypes Value) : List Value → Bytes
  | [] => []
  | v :: _ => (S.ToBytes v).1

/-- The destination the spec gives a unique vindex for a result set of at most one row:
none for no row, the keyspace id of the row's first column for one row. -/
def uniqueDestination {Value : Type} (S : Sqltypes Value) (res : Option (Result Value)) :
    ShardDestination :=
  match res with
  | some ⟨[row]⟩ => ShardDestination.DestinationKeyspaceID (firstColumnBytes S row)
  | _ => ShardDestination.DestinationNone

/-- The destination the spec gives a non-unique vindex for a result set: none for no row,
otherwise the keyspace ids of the first columns of its rows, in row order. -/
def nonUniqueDestination {Value : Type} (S : Sqltypes Value) (res : Option (Result Value)) :
    ShardDestination :=
  match res with
  | none => ShardDestination.DestinationNone
  | some ⟨[]⟩ => ShardDestination.DestinationNone
  | some ⟨row :: rows⟩ =>
    ShardDestination.DestinationKeyspaceIDs ((row :: rows).map (firstColumnBytes S))

/-- The id list is a single null id. -/
def isSingleNull {Value : Type} (S : Sqltypes Value) : List Value → Bool
  | [id] => S.IsNull id
  | _ => false

/-- The full key range, `&topodatapb.KeyRange{}`, as a destination. -/
def fullKeyRange : ShardDestination :=
  ShardDestination.DestinationKeyRange ⟨[], []⟩

/-- The destination is a set of keyspace ids. -/
def ShardDestination.isKeyspaceIDs : ShardDestination → Bool
  | ShardDestination.DestinationKeyspaceIDs _ => true
  | _ => false

/-- The result set is present (not a nil pointer) and each of its rows has at least one
column. -/
def resultIndexable {Value : Type} : Option (Result Value) → Bool
  | none => false
  | some r => r.Rows.all (fun row => !row.isEmpty)

/-- The first failure of a constructor, in source order: parsing the common configuration,
parsing `write_only`, parsing `no_verify`, then the engine's `Init` with the upsert flag the
constructor derives from the common configuration. -/
def firstFailure (H : Helpers) (m : ParamMap) (upsert : commonConfig → Bool) : Option Error :=
  match (H.parseCommonConfig m).2 with
  | some err => some err
  | none =>
    match (H.boolFromMap m lookupParamWriteOnly).2 with
    | some err => some err
    | none =>
      match (H.boolFromMap m lookupParamNoVerify).2 with
      | some err => some err
      | none =>
        (H.Init lookupInternal.zero m (H.parseCommonConfig m).1.autocommit
          (upsert (H.parseCommonConfig m).1) (H.parseCommonConfig m).1.multiShardAutocommit).2

/-! ## Properties of the shared loops -/

theorem foldl_append_const {α β : Type} (b : β) (l : List α) (acc : List β) :
    l.foldl (fun out _ => out ++ [b]) acc = acc ++ List.replicate l.length b := by
  induction l generalizing acc with
  | nil => simp
  | cons a t ih =>
    simp only [List.foldl_cons, List.length_cons, ih, List.replicate_succ]
    simp

theorem appendKeyRanges_eq {α : Type} (ids : List α) :
    appendKeyRanges ids = List.replicate ids.length fullKeyRange := by
  unfold appendKeyRanges fullKeyRange
  rw [foldl_append_const]
  simp

theorem foldl_set_true (n k : Nat) (hk : k ≤ n) :
    (List.range k).foldl (fun out i => out.set i true) (List.replicate n false)
      = List.replicate k true ++ List.replicate (n - k) false := by
  induction k with
  | zero => simp
  | succ k ih =>
    rw [List.range_succ, List.foldl_append, ih (by omega)]
    simp only [List.foldl_cons, List.foldl_nil]
    have h1 : n - k = (n - (k + 1)) + 1 := by omega
    rw [h1, List.replicate_succ, List.set_append_right _ _ (by simp)]
    rw [List.replicate_succ' k true]
    simp

theorem allTrue_eq {α : Type} (ids : List α) :
    allTrue ids = List.replicate ids.length true := by
  unfold allTrue
  rw [foldl_set_true _ _ (le_refl _)]
  simp

/-! ## The loop of the unique variant -/

theorem firstMultiple_none {Value : Type} (results : List (Option (Result Value))) :
    firstMultiple results = none ↔ ∀ res ∈ results, rowCount res ≤ 1 := by
  induction results with
  | nil => simp [firstMultiple]
  | cons res rest ih =>
    by_cases h : 1 < rowCount res
    · simp only [firstMultiple, h, if_true, List.mem_cons]
      constructor
      · intro h0
        cases h0
      · intro h0
        have := h0 res (Or.inl rfl)
        omega
    · simp only [firstMultiple, h, if_false, Option.map_eq_none', ih, List.mem_cons]
      constructor
      · intro h0 x hx
        rcases hx with rfl | hx
        · omega
        · exact h0 x hx
      · intro h0 x hx
        exact h0 x (Or.inr hx)

theorem firstMultiple_some {Value : Type} (results : List (Option (Result Value))) (k : Nat)
    (h : firstMultiple results = some k) :
    (∃ res, results[k]? = some res ∧ 1 < rowCount res) ∧
      ∀ j res, j < k → results[j]? = some res → rowCount res ≤ 1 := by
  induction results generalizing k with
  | nil => simp [firstMultiple] at h
  | cons res rest ih =>
    by_cases h1 : 1 < rowCount res
    · simp only [firstMultiple, h1, if_true, Option.some.injEq] at h
      subst h
      exact ⟨⟨res, by simp, h1⟩, fun j _ hj => by omega⟩
    · simp only [firstMultiple, h1, if_false, Option.map_eq_some'] at h
      obtain ⟨k0, hk0, rfl⟩ := h
      obtain ⟨⟨r0, hr0, hm⟩, hlt⟩ := ih k0 hk0
      refine ⟨⟨r0, by simpa using hr0, hm⟩, ?_⟩
      intro j x hj hx
      cases j with
      | zero =>
        simp only [List.getElem?_cons_zero, Option.some.injEq] at hx
        subst hx
        omega
      | succ j =>
        simp only [List.getElem?_cons_succ] at hx
        exact hlt j x (by omega) hx

theorem unique_loop_spec {Value : Type} (S : Sqltypes Value) (lu : LookupUnique)
    (ids : List Value) (results : List (Option (Result Value))) (i : Nat)
    (out : List ShardDestination) (hc : ∀ res ∈ results, resultConverts S res = true) :
    LookupUnique.MapResult.loop S lu ids i results out =
      match firstMultiple results with
      | none => Run.ret (some (out ++ results.map (uniqueDestination S)), none)
      | some k =>
        match ids[i + k]? with
        | none => Run.panic (Panic.indexOutOfRange (i + k) ids.length)
        | some id => Run.ret (none, some (LookupUnique.MapResult.errorf S lu id)) := by
  induction results generalizing i out with
  | nil => simp [LookupUnique.MapResult.loop, firstMultiple]
  | cons res rest ih =>
    have hres := hc res (List.mem_cons_self _ _)
    have hrest : ∀ x ∈ rest, resultConverts S x = true :=
      fun x hx => hc x (List.mem_cons_of_mem _ hx)
    cases res with
    | none => simp [resultConverts] at hres
    | some r =>
      obtain ⟨rows⟩ := r
      match rows, hres with
      | [], _ =>
        simp only [LookupUnique.MapResult.loop, firstMultiple, rowCount, List.length_nil]
        rw [ih _ _ hrest]
        cases firstMultiple rest with
        | none => simp [uniqueDestination]
        | some k => simp [Nat.add_assoc, Nat.add_comm 1 k]
      | [[]], hres => simp [resultConverts, rowConverts] at hres
      | [v :: cols], hres =>
        simp only [resultConverts, rowConverts, List.all_cons, List.all_nil, Bool.and_true,
          Option.isNone_iff_eq_none] at hres
        have hb : S.ToBytes v = ((S.ToBytes v).1, none) := by
          rw [← hres]
        simp only [LookupUnique.MapResult.loop, firstMultiple, rowCount, List.length_cons,
          List.length_nil]
        rw [hb]
        simp only []
        rw [ih _ _ hrest]
        cases firstMultiple rest with
        | none => simp [uniqueDestination, firstColumnBytes]
        | some k => simp [Nat.add_assoc, Nat.add_comm 1 k]
      | row1 :: row2 :: more, _ =>
        simp [LookupUnique.MapResult.loop, firstMultiple, rowCount]

theorem uniqueDestination_not_set {Value : Type} (S : Sqltypes Value)
    (res : Option (Result Value)) : (uniqueDestination S res).isKeyspaceIDs = false := by
  unfold uniqueDestination
  split <;> rfl

theorem unique_MapResult_of_single {Value : Type} (S : Sqltypes Value) (lu : LookupUnique)
    (ids : List Value) (results : List (Option (Result Value)))
    (hr : ∀ res ∈ results, resultConverts S res = true ∧ rowCount res ≤ 1) :
    LookupUnique.MapResult S lu ids results =
      Run.ret (some (results.map (uniqueDestination S)), none) := by
  unfold LookupUnique.MapResult
  rw [unique_loop_spec S lu ids results 0 [] (fun res h => (hr res h).1)]
  rw [(firstMultiple_none results).2 (fun res h => (hr res h).2)]
  simp

/-! ## Map and MapResult of the unique variant -/

/-- C1: for a `LookupUnique` that is not write-only, when the engine's `Lookup` returns one
result set per id, each present, of at most one row, with a first column that converts to
bytes, `Map` returns without error exactly one destination per id: position `i` is
`uniqueDestination` of result `i` alone, that is `DestinationNone` for no row and
`DestinationKeyspaceID` of the first column's bytes for one row. -/
theorem LookupUnique_Map_destinations {Value σ : Type} (S : Sqltypes Value)
    (E : lookupInternalMethods Value σ) (lu : LookupUnique) (vcursor vcursor1 : σ)
    (ids : List Value) (results : List (Option (Result Value)))
    (hw : lu.writeOnly = false)
    (hl : E.Lookup lu.lkp vcursor ids CommitOrder.NORMAL = ((results, none), vcursor1))
    (hn : results.length = ids.length)
    (hr : ∀ res ∈ results, resultConverts S res = true ∧ rowCount res ≤ 1) :
    ∃ out, LookupUnique.Map S E lu vcursor ids = (Run.ret (some out, none), vcursor1) ∧
      out.length = ids.length ∧
      (∀ i : Nat, out[i]? = (results[i]?).map (uniqueDestination S)) ∧
      ∀ (i : Nat) (r : Result Value), results[i]? = some (some r) →
        (r.Rows = [] → out[i]? = some ShardDestination.DestinationNone) ∧
        (∀ row, r.Rows = [row] →
          out[i]? = some (ShardDestination.DestinationKeyspaceID (firstColumnBytes S row))) := by
  refine ⟨results.map (uniqueDestination S), ?_, by simpa using hn, ?_, ?_⟩
  · simp only [LookupUnique.Map, hw, hl, Bool.false_eq_true, if_false]
    rw [unique_MapResult_of_single S lu ids results hr]
  · intro i
    simp
  · intro i r hi
    obtain ⟨rows⟩ := r
    constructor
    · intro h0
      simp only at h0
      subst h0
      simp [hi, uniqueDestination]
    · intro row h1
      simp only at h1
      subst h1
      simp [hi, uniqueDestination]

theorem LookupUnique_Map_destinations_witness :
    (sampleUnique "owner_idx" "t" false false).writeOnly = false ∧
    (stubEngine [some ⟨[]⟩, some ⟨[[SampleValue.VARBINARY [128, 1]]]⟩] none none).Lookup
        (sampleUnique "owner_idx" "t" false false).lkp 0
        [SampleValue.INT64 1, SampleValue.INT64 2] CommitOrder.NORMAL
      = (([some ⟨[]⟩, some ⟨[[SampleValue.VARBINARY [128, 1]]]⟩], none), 1) ∧
    ∃ out, LookupUnique.Map sampleSqltypes
        (stubEngine [some ⟨[]⟩, some ⟨[[SampleValue.VARBINARY [128, 1]]]⟩] none none)
        (sampleUnique "owner_idx" "t" false false) 0
        [SampleValue.INT64 1, SampleValue.INT64 2]
      = (Run.ret (some out, none), 1) ∧ out.length = 2 ∧
      out[0]? = some ShardDestination.DestinationNone ∧
      out[1]? = some (ShardDestination.DestinationKeyspaceID [128, 1]) := by
  refine ⟨rfl, rfl, ?_⟩
  obtain ⟨out, h, hlen, _, hel⟩ := LookupUnique_Map_destinations sampleSqltypes
    (stubEngine [some ⟨[]⟩, some ⟨[[SampleValue.VARBINARY [128, 1]]]⟩] none none)
    (sampleUnique "owner_idx" "t" false false) 0 1
    [SampleValue.INT64 1, SampleValue.INT64 2]
    [some ⟨[]⟩, some ⟨[[SampleValue.VARBINARY [128, 1]]]⟩] rfl rfl rfl (by decide)
  exact ⟨out, h, hlen, (hel 0 ⟨[]⟩ rfl).1 rfl,
    (hel 1 ⟨[[SampleValue.VARBINARY [128, 1]]]⟩ rfl).2 [SampleValue.VARBINARY [128, 1]] rfl⟩

/-- C2: for every `LookupUnique`, when there is one result set per id, each present and with
rows whose first column converts to bytes, `MapResult` returns (it does not panic); it returns
an error exactly when some result set holds more than one row; with an error the destinations
are nil; without one, no destination is a `DestinationKeyspaceIDs` set. -/
theorem LookupUnique_MapResult_error_iff {Value : Type} (S : Sqltypes Value)
    (lu : LookupUnique) (ids : List Value) (results : List (Option (Result Value)))
    (hn : results.length = ids.length)
    (hc : ∀ res ∈ results, resultConverts S res = true) :
    ∃ dests err, LookupUnique.MapResult S lu ids results = Run.ret (dests, err) ∧
      (err ≠ none ↔ ∃ res ∈ results, 1 < rowCount res) ∧
      (err ≠ none → dests = none) ∧
      (err = none → ∃ out, dests = some out ∧ out.length = ids.length ∧
        ∀ d ∈ out, d.isKeyspaceIDs = false) := by
  unfold LookupUnique.MapResult
  rw [unique_loop_spec S lu ids results 0 [] hc]
  cases hf : firstMultiple results with
  | none =>
    have hall := (firstMultiple_none results).1 hf
    refine ⟨some (results.map (uniqueDestination S)), none, by simp, ?_, by simp, ?_⟩
    · simp only [ne_eq, not_true_eq_false, false_iff, not_exists, not_and, not_lt]
      exact hall
    · intro _
      refine ⟨_, rfl, by simpa using hn, ?_⟩
      intro d hd
      obtain ⟨res, _, rfl⟩ := List.mem_map.1 hd
      exact uniqueDestination_not_set S res
  | some k =>
    obtain ⟨⟨res, hk, hm⟩, _⟩ := firstMultiple_some results k hf
    have hlt : k < ids.length := by
      have := (List.getElem?_eq_some.1 hk).1
      omega
    have hid : ids[0 + k]? = some (ids.get ⟨k, hlt⟩) := by
      simp [List.getElem?_eq_getElem hlt]
    refine ⟨none, some (LookupUnique.MapResult.errorf S lu (ids.get ⟨k, hlt⟩)), ?_, ?_, ?_, ?_⟩
    · simp only [hid]
    · simp only [ne_eq, reduceCtorEq, not_false_eq_true, true_iff]
      exact ⟨res, List.getElem?_mem hk, hm⟩
    · intro _
      rfl
    · intro h
      cases h

theorem LookupUnique_MapResult_error_iff_witness :
    ([some ⟨[[SampleValue.VARBINARY [1]], [SampleValue.VARBINARY [2]]]⟩, some ⟨[]⟩] :
        List (Option (Result SampleValue))).length
      = [SampleValue.INT64 1, SampleValue.INT64 2].length ∧
    (∀ res ∈ ([some ⟨[[SampleValue.VARBINARY [1]], [SampleValue.VARBINARY [2]]]⟩, some ⟨[]⟩] :
        List (Option (Result SampleValue))), resultConverts sampleSqltypes res = true) ∧
    ∃ dests err, LookupUnique.MapResult sampleSqltypes (sampleUnique "owner_idx" "t" true false)
        [SampleValue.INT64 1, SampleValue.INT64 2]
        [some ⟨[[SampleValue.VARBINARY [1]], [SampleValue.VARBINARY [2]]]⟩, some ⟨[]⟩]
      = Run.ret (dests, err) ∧ err ≠ none ∧ dests = none := by
  refine ⟨rfl, by decide, ?_⟩
  obtain ⟨dests, err, h, hiff, hnil, _⟩ := LookupUnique_MapResult_error_iff sampleSqltypes
    (sampleUnique "owner_idx" "t" true false) [SampleValue.INT64 1, SampleValue.INT64 2]
    [some ⟨[[SampleValue.VARBINARY [1]], [SampleValue.VARBINARY [2]]]⟩, some ⟨[]⟩]
    rfl (by decide)
  have he : err ≠ none := hiff.2 ⟨some ⟨[[SampleValue.VARBINARY [1]], [SampleValue.VARBINARY [2]]]⟩,
    by simp, by decide⟩
  exact ⟨dests, err, h, he, hnil he⟩

theorem LookupUnique_MapResult_error_message {Value : Type} (S : Sqltypes Value)
    (lu : LookupUnique) (ids : List Value) (results : List (Option (Result Value)))
    (k : Nat) (id : Value)
    (hc : ∀ res ∈ results, resultConverts S res = true)
    (hk : firstMultiple results = some k) (hid : ids[k]? = some id) :
    LookupUnique.MapResult S lu ids results =
      Run.ret (none, some ⟨"Lookup.Map: unexpected multiple results from vindex "
        ++ lu.lkp.Table ++ ": " ++ S.String id⟩) := by
  unfold LookupUnique.MapResult
  rw [unique_loop_spec S lu ids results 0 [] hc, hk]
  simp [hid, LookupUnique.MapResult.errorf]

/-- C3, evaluated on the code: a unique vindex constructed with the name `owner_idx` (what
`String()` returns) over the lookup table `t`, given ids `INT64(1), INT64(2)` and a first
result set of two rows, fails with the message
`Lookup.Map: unexpected multiple results from vindex t: INT64(1)`. The message holds the
rendering of the offending id and the name of the TABLE; the name of the vindex does not occur
in it. -/
theorem LookupUnique_MapResult_error_names_table :
    (sampleUnique "owner_idx" "t" false false).String = "owner_idx" ∧
    LookupUnique.MapResult sampleSqltypes (sampleUnique "owner_idx" "t" false false)
        [SampleValue.INT64 1, SampleValue.INT64 2]
        [some ⟨[[SampleValue.VARBINARY [1]], [SampleValue.VARBINARY [2]]]⟩, some ⟨[]⟩]
      = Run.ret (none,
          some ⟨"Lookup.Map: unexpected multiple results from vindex t: INT64(1)"⟩) ∧
    ¬ ("owner_idx".toList <:+:
        "Lookup.Map: unexpected multiple results from vindex t: INT64(1)".toList) ∧
    ("INT64(1)".toList <:+:
        "Lookup.Map: unexpected multiple results from vindex t: INT64(1)".toList) := by
  decide

/-! ## The loops of the non-unique variant -/

theorem nonUnique_rows_spec {Value : Type} (S : Sqltypes Value) (rows : List (List Value))
    (ksids : List Bytes) (hc : rows.all (rowConverts S) = true) :
    LookupNonUnique.MapResult.rows S rows ksids =
      Run.ret (ksids ++ rows.map (firstColumnBytes S), none) := by
  induction rows generalizing ksids with
  | nil => simp [LookupNonUnique.MapResult.rows]
  | cons row rest ih =>
    simp only [List.all_cons, Bool.and_eq_true] at hc
    obtain ⟨hrow, hrest⟩ := hc
    cases row with
    | nil => simp [rowConverts] at hrow
    | cons v cols =>
      simp only [rowConverts, Option.isNone_iff_eq_none] at hrow
      have hb : S.ToBytes v = ((S.ToBytes v).1, none) := by
        rw [← hrow]
      simp only [LookupNonUnique.MapResult.rows]
      rw [hb]
      simp only []
      rw [ih _ hrest]
      simp [firstColumnBytes]

theorem nonUnique_loop_spec {Value : Type} (S : Sqltypes Value)
    (results : List (Option (Result Value))) (out : List ShardDestination)
    (hc : ∀ res ∈ results, resultConverts S res = true) :
    LookupNonUnique.MapResult.loop S results out =
      Run.ret (some (out ++ results.map (nonUniqueDestination S)), none) := by
  induction results generalizing out with
  | nil => simp [LookupNonUnique.MapResult.loop]
  | cons res rest ih =>
    have hres := hc res (List.mem_cons_self _ _)
    have hrest : ∀ x ∈ rest, resultConverts S x = true :=
      fun x hx => hc x (List.mem_cons_of_mem _ hx)
    cases res with
    | none => simp [resultConverts] at hres
    | some r =>
      obtain ⟨rows⟩ := r
      cases rows with
      | nil =>
        simp only [LookupNonUnique.MapResult.loop, List.length_nil, if_true]
        rw [ih _ hrest]
        simp [nonUniqueDestination]
      | cons row more =>
        simp only [resultConverts] at hres
        simp only [LookupNonUnique.MapResult.loop, List.length_cons, Nat.add_one_ne_zero,
          if_false]
        rw [nonUnique_rows_spec S (row :: more) [] hres]
        simp only []
        rw [ih _ hrest]
        simp [nonUniqueDestination]

theorem nonUnique_guard_iff {Value : Type} (S : Sqltypes Value) (ln : LookupNonUnique)
    (ids : List Value) :
    (ids.length = 1 ∧ (ids.head?.map S.IsNull = some true) ∧ ln.lkp.IgnoreNulls = true) ↔
      (isSingleNull S ids = true ∧ ln.lkp.IgnoreNulls = true) := by
  match ids with
  | [] => simp [isSingleNull]
  | [id] => simp [isSingleNull]
  | a :: b :: rest => simp [isSingleNull]

theorem nonUnique_Map_consults {Value σ : Type} (S : Sqltypes Value)
    (E : lookupInternalMethods Value σ) (ln : LookupNonUnique) (vcursor : σ)
    (ids : List Value) (hw : ln.writeOnly = false)
    (hg : ¬ (isSingleNull S ids = true ∧ ln.lkp.IgnoreNulls = true)) :
    LookupNonUnique.Map S E ln vcursor ids =
      match E.Lookup ln.lkp vcursor ids CommitOrder.NORMAL with
      | ((_, some err), vcursor1) => (Run.ret (none, some err), vcursor1)
      | ((results, none), vcursor1) => (LookupNonUnique.MapResult S ln ids results, vcursor1) := by
  have hg2 := (not_congr (nonUnique_guard_iff S ln ids)).2 hg
  simp only [LookupNonUnique.Map, hw, Bool.false_eq_true, if_false, hg2]

/-! ## Map and MapResult of the non-unique variant -/

/-- C4 as stated fails: a non-unique vindex that is not write-only, with `IgnoreNulls`
enabled, asked for the single id NULL over an engine whose `Lookup` returns one empty result
set. `Map` does not call the engine: it returns the full key range, not `DestinationNone`. -/
theorem LookupNonUnique_Map_single_null_counterexample :
    (sampleNonUnique "owner_idx" "t" false false true).writeOnly = false ∧
    (stubEngine [some ⟨[]⟩] none none).Lookup (sampleNonUnique "owner_idx" "t" false false true).lkp
        0 [SampleValue.NULL] CommitOrder.NORMAL = (([some ⟨[]⟩], none), 1) ∧
    LookupNonUnique.Map sampleSqltypes (stubEngine [some ⟨[]⟩] none none)
        (sampleNonUnique "owner_idx" "t" false false true) 0 [SampleValue.NULL]
      = (Run.ret (some [ShardDestination.DestinationKeyRange ⟨[], []⟩], none), 0) ∧
    LookupNonUnique.Map sampleSqltypes (stubEngine [some ⟨[]⟩] none none)
        (sampleNonUnique "owner_idx" "t" false false true) 0 [SampleValue.NULL]
      ≠ (Run.ret (some [ShardDestination.DestinationNone], none), 1) := by
  decide

/-- C4, amended: for a `LookupNonUnique` that is not write-only and an id list that is not a
single null id under `IgnoreNulls`, when the engine's `Lookup` returns one result set per id,
each present and with rows whose first column converts to bytes, `Map` returns without error
exactly one destination per id: position `i` is `DestinationNone` when result `i` has no
row, and otherwise `DestinationKeyspaceIDs` of the first-column bytes of the rows of result
`i`, one per row and in row order. -/
theorem LookupNonUnique_Map_destinations {Value σ : Type} (S : Sqltypes Value)
    (E : lookupInternalMethods Value σ) (ln : LookupNonUnique) (vcursor vcursor1 : σ)
    (ids : List Value) (results : List (Option (Result Value)))
    (hw : ln.writeOnly = false)
    (hg : ¬ (isSingleNull S ids = true ∧ ln.lkp.IgnoreNulls = true))
    (hl : E.Lookup ln.lkp vcursor ids CommitOrder.NORMAL = ((results, none), vcursor1))
    (hn : results.length = ids.length)
    (hc : ∀ res ∈ results, resultConverts S res = true) :
    ∃ out, LookupNonUnique.Map S E ln vcursor ids = (Run.ret (some out, none), vcursor1) ∧
      out.length = ids.length ∧
      (∀ i : Nat, out[i]? = (results[i]?).map (nonUniqueDestination S)) ∧
      ∀ (i : Nat) (r : Result Value), results[i]? = some (some r) →
        (r.Rows = [] → out[i]? = some ShardDestination.DestinationNone) ∧
        (r.Rows ≠ [] →
          out[i]? = some (ShardDestination.DestinationKeyspaceIDs
            (r.Rows.map (firstColumnBytes S))) ∧
          (r.Rows.map (firstColumnBytes S)).length = r.Rows.length ∧
          r.Rows.map (firstColumnBytes S) ≠ []) := by
  refine ⟨results.map (nonUniqueDestination S), ?_, by simpa using hn, ?_, ?_⟩
  · rw [nonUnique_Map_consults S E ln vcursor ids hw hg, hl]
    simp only [LookupNonUnique.MapResult, hw, Bool.false_eq_true, if_false]
    rw [nonUnique_loop_spec S results [] hc]
    simp
  · intro i
    simp
  · intro i r hi
    obtain ⟨rows⟩ := r
    constructor
    · intro h0
      simp only at h0
      subst h0
      simp [hi, nonUniqueDestination]
    · intro h1
      simp only at h1
      cases rows with
      | nil => exact absurd rfl h1
      | cons row more => simp [hi, nonUniqueDestination]

theorem LookupNonUnique_Map_destinations_witness :
    (sampleNonUnique "owner_idx" "t" false false true).writeOnly = false ∧
    ¬ (isSingleNull sampleSqltypes [SampleValue.NULL, SampleValue.INT64 7] = true ∧
        (sampleNonUnique "owner_idx" "t" false false true).lkp.IgnoreNulls = true) ∧
    ∃ out, LookupNonUnique.Map sampleSqltypes
        (stubEngine [some ⟨[]⟩,
          some ⟨[[SampleValue.VARBINARY [64]], [SampleValue.VARBINARY [192, 1]]]⟩] none none)
        (sampleNonUnique "owner_idx" "t" false false true) 0
        [SampleValue.NULL, SampleValue.INT64 7]
      = (Run.ret (some out, none), 1) ∧ out.length = 2 ∧
      out[0]? = some ShardDestination.DestinationNone ∧
      out[1]? = some (ShardDestination.DestinationKeyspaceIDs [[64], [192, 1]]) := by
  refine ⟨rfl, by decide, ?_⟩
  obtain ⟨out, h, hlen, _, hel⟩ := LookupNonUnique_Map_destinations sampleSqltypes
    (stubEngine [some ⟨[]⟩,
      some ⟨[[SampleValue.VARBINARY [64]], [SampleValue.VARBINARY [192, 1]]]⟩] none none)
    (sampleNonUnique "owner_idx" "t" false false true) 0 1
    [SampleValue.NULL, SampleValue.INT64 7]
    [some ⟨[]⟩, some ⟨[[SampleValue.VARBINARY [64]], [SampleValue.VARBINARY [192, 1]]]⟩]
    rfl (by decide) rfl rfl (by decide)
  exact ⟨out, h, hlen, (hel 0 ⟨[]⟩ rfl).1 rfl,
    ((hel 1 ⟨[[SampleValue.VARBINARY [64]], [SampleValue.VARBINARY [192, 1]]]⟩ rfl).2
      (by decide)).1⟩

/-! ## Write-only and no-verify short circuits -/

/-- C5: for both variants with `writeOnly = true` and every id list, `Map` returns no error
and exactly `len(ids)` destinations, each the full (empty-bounds) key range; this holds for
every engine, whose `Lookup` is not called: the world state is returned unchanged. -/
theorem writeOnly_Map_full_scatter {Value σ : Type} (S : Sqltypes Value)
    (E : lookupInternalMethods Value σ) (lu : LookupUnique) (ln : LookupNonUnique)
    (vcursor : σ) (ids : List Value) (hu : lu.writeOnly = true) (hn : ln.writeOnly = true) :
    LookupUnique.Map S E lu vcursor ids =
        (Run.ret (some (List.replicate ids.length
          (ShardDestination.DestinationKeyRange ⟨[], []⟩)), none), vcursor) ∧
    LookupNonUnique.Map S E ln vcursor ids =
        (Run.ret (some (List.replicate ids.length
          (ShardDestination.DestinationKeyRange ⟨[], []⟩)), none), vcursor) := by
  constructor
  · simp only [LookupUnique.Map, hu, if_true, appendKeyRanges_eq, fullKeyRange]
  · simp only [LookupNonUnique.Map, hn, if_true, appendKeyRanges_eq, fullKeyRange]

theorem writeOnly_Map_full_scatter_witness :
    (sampleUnique "owner_idx" "t" true false).writeOnly = true ∧
    (sampleNonUnique "owner_idx" "t" true false false).writeOnly = true ∧
    LookupUnique.Map sampleSqltypes failingEngine (sampleUnique "owner_idx" "t" true false) 0
        [SampleValue.INT64 1, SampleValue.NULL]
      = (Run.ret (some [ShardDestination.DestinationKeyRange ⟨[], []⟩,
          ShardDestination.DestinationKeyRange ⟨[], []⟩], none), 0) ∧
    LookupNonUnique.Map sampleSqltypes failingEngine
        (sampleNonUnique "owner_idx" "t" true false false) 0
        [SampleValue.INT64 1, SampleValue.NULL]
      = (Run.ret (some [ShardDestination.DestinationKeyRange ⟨[], []⟩,
          ShardDestination.DestinationKeyRange ⟨[], []⟩], none), 0) :=
  ⟨rfl, rfl, writeOnly_Map_full_scatter sampleSqltypes failingEngine
    (sampleUnique "owner_idx" "t" true false) (sampleNonUnique "owner_idx" "t" true false false)
    0 [SampleValue.INT64 1, SampleValue.NULL] rfl rfl⟩

/-- C6: for both variants with `writeOnly = true` or `noVerify = true`, every id list and
every `ksids` of any length, `Verify` returns no error and exactly `len(ids)` booleans, all
true; this holds for every engine, whose `Verify` is not called: the world state is returned
unchanged. -/
theorem trusting_Verify_all_true {Value σ : Type} (S : Sqltypes Value)
    (E : lookupInternalMethods Value σ) (lu : LookupUnique) (ln : LookupNonUnique)
    (vcursor : σ) (ids : List Value) (ksids : List Bytes)
    (hu : lu.writeOnly = true ∨ lu.noVerify = true)
    (hn : ln.writeOnly = true ∨ ln.noVerify = true) :
    LookupUnique.Verify S E lu vcursor ids ksids =
        ((some (List.replicate ids.length true), none), vcursor) ∧
    LookupNonUnique.Verify S E ln vcursor ids ksids =
        ((some (List.replicate ids.length true), none), vcursor) := by
  have hu2 : (lu.writeOnly || lu.noVerify) = true := by simpa using hu
  have hn2 : (ln.writeOnly || ln.noVerify) = true := by simpa using hn
  constructor
  · simp only [LookupUnique.Verify, hu2, if_true, allTrue_eq]
  · simp only [LookupNonUnique.Verify, hn2, if_true, allTrue_eq]

theorem trusting_Verify_all_true_witness :
    ((sampleUnique "owner_idx" "t" false true).writeOnly = true ∨
      (sampleUnique "owner_idx" "t" false true).noVerify = true) ∧
    ((sampleNonUnique "owner_idx" "t" true false false).writeOnly = true ∨
      (sampleNonUnique "owner_idx" "t" true false false).noVerify = true) ∧
    LookupUnique.Verify sampleSqltypes failingEngine (sampleUnique "owner_idx" "t" false true) 0
        [SampleValue.INT64 1, SampleValue.INT64 2, SampleValue.NULL] [[128]]
      = ((some [true, true, true], none), 0) ∧
    LookupNonUnique.Verify sampleSqltypes failingEngine
        (sampleNonUnique "owner_idx" "t" true false false) 0
        [SampleValue.INT64 1, SampleValue.INT64 2, SampleValue.NULL] [[128]]
      = ((some [true, true, true], none), 0) :=
  ⟨Or.inr rfl, Or.inl rfl, trusting_Verify_all_true sampleSqltypes failingEngine
    (sampleUnique "owner_idx" "t" false true) (sampleNonUnique "owner_idx" "t" true false false)
    0 [SampleValue.INT64 1, SampleValue.INT64 2, SampleValue.NULL] [[128]]
    (Or.inr rfl) (Or.inl rfl)⟩

/-! ## The single-null exception of the non-unique variant -/

/-- C7: for every `LookupNonUnique` whose engine has `IgnoreNulls` enabled, whatever its
`writeOnly` flag, `Map` of the one-element list holding a null id returns no error and exactly
one destination, the full key range; this holds for every engine, whose `Lookup` is not
called: the world state is returned unchanged. -/
theorem LookupNonUnique_Map_single_null {Value σ : Type} (S : Sqltypes Value)
    (E : lookupInternalMethods Value σ) (ln : LookupNonUnique) (vcursor : σ) (id : Value)
    (hi : ln.lkp.IgnoreNulls = true) (hnull : S.IsNull id = true) :
    LookupNonUnique.Map S E ln vcursor [id] =
      (Run.ret (some [ShardDestination.DestinationKeyRange ⟨[], []⟩], none), vcursor) := by
  cases hw : ln.writeOnly with
  | true => simp [LookupNonUnique.Map, hw, appendKeyRanges]
  | false => simp [LookupNonUnique.Map, hw, hi, hnull, appendKeyRanges]

theorem LookupNonUnique_Map_single_null_witness :
    (sampleNonUnique "owner_idx" "t" false false true).lkp.IgnoreNulls = true ∧
    sampleSqltypes.IsNull SampleValue.NULL = true ∧
    LookupNonUnique.Map sampleSqltypes failingEngine
        (sampleNonUnique "owner_idx" "t" false false true) 0 [SampleValue.NULL]
      = (Run.ret (some [ShardDestination.DestinationKeyRange ⟨[], []⟩], none), 0) :=
  ⟨rfl, rfl, LookupNonUnique_Map_single_null sampleSqltypes failingEngine
    (sampleNonUnique "owner_idx" "t" false false true) 0 SampleValue.NULL rfl rfl⟩

/-- C8: for every `LookupNonUnique` that is not write-only and every id list that is not a
single null id under `IgnoreNulls` (so also a single null id with `IgnoreNulls` disabled, and
every list of two ids), when the engine's `Lookup(ids, NORMAL)` returns the result sets `r`
without error, `Map(ids)` is `MapResult(ids, r)`; in particular for two ids and two empty result
sets it is two `DestinationNone`, not a full scatter. -/
theorem LookupNonUnique_Map_eq_MapResult {Value σ : Type} (S : Sqltypes Value)
    (E : lookupInternalMethods Value σ) (ln : LookupNonUnique) (vcursor vcursor1 : σ)
    (ids : List Value) (results : List (Option (Result Value)))
    (hw : ln.writeOnly = false)
    (hg : ¬ (isSingleNull S ids = true ∧ ln.lkp.IgnoreNulls = true))
    (hl : E.Lookup ln.lkp vcursor ids CommitOrder.NORMAL = ((results, none), vcursor1)) :
    LookupNonUnique.Map S E ln vcursor ids
        = (LookupNonUnique.MapResult S ln ids results, vcursor1) ∧
      (ids.length = 2 → results = [some ⟨[]⟩, some ⟨[]⟩] →
        LookupNonUnique.Map S E ln vcursor ids
          = (Run.ret (some [ShardDestination.DestinationNone,
              ShardDestination.DestinationNone], none), vcursor1)) := by
  have h : LookupNonUnique.Map S E ln vcursor ids
      = (LookupNonUnique.MapResult S ln ids results, vcursor1) := by
    rw [nonUnique_Map_consults S E ln vcursor ids hw hg, hl]
  refine ⟨h, ?_⟩
  intro _ hres
  rw [h, hres]
  simp [LookupNonUnique.MapResult, hw, LookupNonUnique.MapResult.loop]

theorem LookupNonUnique_Map_eq_MapResult_witness :
    (sampleNonUnique "owner_idx" "t" false false true).writeOnly = false ∧
    ¬ (isSingleNull sampleSqltypes [SampleValue.NULL, SampleValue.NULL] = true ∧
        (sampleNonUnique "owner_idx" "t" false false true).lkp.IgnoreNulls = true) ∧
    LookupNonUnique.Map sampleSqltypes (stubEngine [some ⟨[]⟩, some ⟨[]⟩] none none)
        (sampleNonUnique "owner_idx" "t" false false true) 0
        [SampleValue.NULL, SampleValue.NULL]
      = (Run.ret (some [ShardDestination.DestinationNone,
          ShardDestination.DestinationNone], none), 1) ∧
    ¬ (isSingleNull sampleSqltypes [SampleValue.NULL] = true ∧
        (sampleNonUnique "owner_idx" "t" false false false).lkp.IgnoreNulls = true) ∧
    LookupNonUnique.Map sampleSqltypes (stubEngine [some ⟨[]⟩] none none)
        (sampleNonUnique "owner_idx" "t" false false false) 0 [SampleValue.NULL]
      = (LookupNonUnique.MapResult sampleSqltypes
          (sampleNonUnique "owner_idx" "t" false false false) [SampleValue.NULL] [some ⟨[]⟩], 1) :=
  ⟨rfl, by decide,
    (LookupNonUnique_Map_eq_MapResult sampleSqltypes (stubEngine [some ⟨[]⟩, some ⟨[]⟩] none none)
      (sampleNonUnique "owner_idx" "t" false false true) 0 1
      [SampleValue.NULL, SampleValue.NULL] [some ⟨[]⟩, some ⟨[]⟩] rfl (by decide) rfl).2 rfl rfl,
    by decide,
    (LookupNonUnique_Map_eq_MapResult sampleSqltypes (stubEngine [some ⟨[]⟩] none none)
      (sampleNonUnique "owner_idx" "t" false false false) 0 1
      [SampleValue.NULL] [some ⟨[]⟩] rfl (by decide) rfl).1⟩

/-! ## Errors of the engine -/

/-- C9 as stated fails for the non-unique variant: a vindex that is not write-only, with
`IgnoreNulls` enabled, asked for the single id NULL over an engine whose `Lookup` fails. `Map`
does not call the engine, and returns the full key range and no error. -/
theorem LookupNonUnique_Map_failing_engine_counterexample :
    (sampleNonUnique "owner_idx" "t" false false true).writeOnly = false ∧
    failingEngine.Lookup (sampleNonUnique "owner_idx" "t" false false true).lkp
        0 [SampleValue.NULL] CommitOrder.NORMAL = (([], some ⟨"executor failure"⟩), 1) ∧
    LookupNonUnique.Map sampleSqltypes failingEngine
        (sampleNonUnique "owner_idx" "t" false false true) 0 [SampleValue.NULL]
      = (Run.ret (some [ShardDestination.DestinationKeyRange ⟨[], []⟩], none), 0) ∧
    LookupNonUnique.Map sampleSqltypes failingEngine
        (sampleNonUnique "owner_idx" "t" false false true) 0 [SampleValue.NULL]
      ≠ (Run.ret (none, some ⟨"executor failure"⟩), 1) := by
  decide

/-- C9, amended: an error returned by the engine is returned to the caller unmodified. When
the engine's `Lookup` fails with `e`, `Map` of a unique variant that is not write-only returns
nil destinations and `e`, and so does `Map` of a non-unique variant that is not write-only
unless the id list is a single null id under `IgnoreNulls`; when neither `writeOnly` nor
`noVerify` is set, `Verify` returns exactly the pair the engine's `Verify` returns; `Create`,
`Update` and `Delete` return exactly what the engine's `Create`, `Update` and `Delete`
return. -/
theorem engine_error_returned_unmodified {Value σ : Type} (S : Sqltypes Value)
    (E : lookupInternalMethods Value σ) (lu : LookupUnique) (ln : LookupNonUnique)
    (vcursor : σ) (ids : List Value) (ksids : List Bytes) :
    (lu.writeOnly = false →
      ∀ results e vcursor1,
        E.Lookup lu.lkp vcursor ids CommitOrder.NORMAL = ((results, some e), vcursor1) →
        LookupUnique.Map S E lu vcursor ids = (Run.ret (none, some e), vcursor1)) ∧
    (ln.writeOnly = false → ¬ (isSingleNull S ids = true ∧ ln.lkp.IgnoreNulls = true) →
      ∀ results e vcursor1,
        E.Lookup ln.lkp vcursor ids CommitOrder.NORMAL = ((results, some e), vcursor1) →
        LookupNonUnique.Map S E ln vcursor ids = (Run.ret (none, some e), vcursor1)) ∧
    (lu.writeOnly = false → lu.noVerify = false →
      ∀ bs e vcursor1,
        E.Verify lu.lkp vcursor ids (ksidsToValues S ksids) = ((bs, e), vcursor1) →
        LookupUnique.Verify S E lu vcursor ids ksids = ((bs, e), vcursor1)) ∧
    (ln.writeOnly = false → ln.noVerify = false →
      ∀ bs e vcursor1,
        E.Verify ln.lkp vcursor ids (ksidsToValues S ksids) = ((bs, e), vcursor1) →
        LookupNonUnique.Verify S E ln vcursor ids ksids = ((bs, e), vcursor1)) ∧
    (∀ rowsColValues ignoreMode,
      LookupUnique.Create S E lu vcursor rowsColValues ksids ignoreMode
        = E.Create lu.lkp vcursor rowsColValues (ksidsToValues S ksids) ignoreMode ∧
      LookupNonUnique.Create S E ln vcursor rowsColValues ksids ignoreMode
        = E.Create ln.lkp vcursor rowsColValues (ksidsToValues S ksids) ignoreMode) ∧
    (∀ oldValues ksid newValues,
      LookupUnique.Update S E lu vcursor oldValues ksid newValues
        = E.Update lu.lkp vcursor oldValues ksid (S.MakeTrustedVarBinary ksid) newValues ∧
      LookupNonUnique.Update S E ln vcursor oldValues ksid newValues
        = E.Update ln.lkp vcursor oldValues ksid (S.MakeTrustedVarBinary ksid) newValues) ∧
    (∀ rowsColValues ksid,
      LookupUnique.Delete S E lu vcursor rowsColValues ksid
        = E.Delete lu.lkp vcursor rowsColValues (S.MakeTrustedVarBinary ksid)
            CommitOrder.NORMAL ∧
      LookupNonUnique.Delete S E ln vcursor rowsColValues ksid
        = E.Delete ln.lkp vcursor rowsColValues (S.MakeTrustedVarBinary ksid)
            CommitOrder.NORMAL) := by
  refine ⟨?_, ?_, ?_, ?_, ?_, ?_, ?_⟩
  · intro hw results e vcursor1 hl
    simp only [LookupUnique.Map, hw, hl, Bool.false_eq_true, if_false]
  · intro hw hg results e vcursor1 hl
    rw [nonUnique_Map_consults S E ln vcursor ids hw hg, hl]
  · intro hw hv bs e vcursor1 hl
    simp only [LookupUnique.Verify, hw, hv, Bool.or_self, Bool.false_eq_true, if_false, hl]
  · intro hw hv bs e vcursor1 hl
    simp only [LookupNonUnique.Verify, hw, hv, Bool.or_self, Bool.false_eq_true, if_false, hl]
  · intro rowsColValues ignoreMode
    exact ⟨rfl, rfl⟩
  · intro oldValues ksid newValues
    exact ⟨rfl, rfl⟩
  · intro rowsColValues ksid
    exact ⟨rfl, rfl⟩

theorem engine_error_returned_unmodified_witness :
    LookupUnique.Map sampleSqltypes failingEngine (sampleUnique "owner_idx" "t" false false) 0
        [SampleValue.INT64 1] = (Run.ret (none, some ⟨"executor failure"⟩), 1) ∧
    LookupNonUnique.Map sampleSqltypes failingEngine
        (sampleNonUnique "owner_idx" "t" false false true) 0 [SampleValue.INT64 1]
      = (Run.ret (none, some ⟨"executor failure"⟩), 1) ∧
    LookupUnique.Verify sampleSqltypes
        (stubEngine [] (some [true, false]) (some ⟨"executor failure"⟩))
        (sampleUnique "owner_idx" "t" false false) 0 [SampleValue.INT64 1] [[128]]
      = ((some [true, false], some ⟨"executor failure"⟩), 1) ∧
    LookupNonUnique.Verify sampleSqltypes failingEngine
        (sampleNonUnique "owner_idx" "t" false false true) 0 [SampleValue.INT64 1] [[128]]
      = ((none, some ⟨"executor failure"⟩), 1) ∧
    LookupUnique.Create sampleSqltypes failingEngine (sampleUnique "owner_idx" "t" false false) 0
        [[SampleValue.INT64 1]] [[128]] false = (some ⟨"executor failure"⟩, 1) :=
  ⟨(engine_error_returned_unmodified sampleSqltypes failingEngine
      (sampleUnique "owner_idx" "t" false false)
      (sampleNonUnique "owner_idx" "t" false false true) 0 [SampleValue.INT64 1] [[128]]).1
      rfl [] ⟨"executor failure"⟩ 1 rfl,
    (engine_error_returned_unmodified sampleSqltypes failingEngine
      (sampleUnique "owner_idx" "t" false false)
      (sampleNonUnique "owner_idx" "t" false false true) 0 [SampleValue.INT64 1] [[128]]).2.1
      rfl (by decide) [] ⟨"executor failure"⟩ 1 rfl,
    (engine_error_returned_unmodified sampleSqltypes
      (stubEngine [] (some [true, false]) (some ⟨"executor failure"⟩))
      (sampleUnique "owner_idx" "t" false false)
      (sampleNonUnique "owner_idx" "t" false false true) 0 [SampleValue.INT64 1] [[128]]).2.2.1
      rfl rfl (some [true, false]) (some ⟨"executor failure"⟩) 1 rfl,
    (engine_error_returned_unmodified sampleSqltypes failingEngine
      (sampleUnique "owner_idx" "t" false false)
      (sampleNonUnique "owner_idx" "t" false false true) 0 [SampleValue.INT64 1] [[128]]).2.2.2.1
      rfl rfl none (some ⟨"executor failure"⟩) 1 rfl,
    ((engine_error_returned_unmodified sampleSqltypes failingEngine
      (sampleUnique "owner_idx" "t" false false)
      (sampleNonUnique "owner_idx" "t" false false true) 0 [SampleValue.INT64 1] [[128]]).2.2.2.2.1
      [[SampleValue.INT64 1]] false).1⟩

/-! ## Construction -/

/-- C10: for every option map `m` whose common configuration parses to `cc`, the only use
either constructor makes of the engine's `Init` is one call, on the zero engine and `m`:
`newLookup` with `(cc.autocommit, cc.autocommit || cc.multiShardAutocommit,
cc.multiShardAutocommit)` and `newLookupUnique` with `(cc.autocommit, false,
cc.multiShardAutocommit)`. When `write_only` and `no_verify` parse too, the constructor's
result is that call's: its error, or the vindex holding the engine it returns. Hence, for an
`Init` that stores the upsert flag it is handed, a constructed non-unique vindex has
`Upsert = cc.autocommit || cc.multiShardAutocommit` and a constructed unique vindex has
`Upsert = false`. -/
theorem constructors_upsert_asymmetry (H : Helpers) (name : String) (m : ParamMap)
    (cc : commonConfig) (hcc : H.parseCommonConfig m = (cc, none)) :
    (∀ init2 : lookupInternal → ParamMap → Bool → Bool → Bool → lookupInternal × Option Error,
      (init2 lookupInternal.zero m cc.autocommit (cc.autocommit || cc.multiShardAutocommit)
          cc.multiShardAutocommit
        = H.Init lookupInternal.zero m cc.autocommit (cc.autocommit || cc.multiShardAutocommit)
            cc.multiShardAutocommit →
        newLookup { H with Init := init2 } name m = newLookup H name m) ∧
      (init2 lookupInternal.zero m cc.autocommit false cc.multiShardAutocommit
        = H.Init lookupInternal.zero m cc.autocommit false cc.multiShardAutocommit →
        newLookupUnique { H with Init := init2 } name m = newLookupUnique H name m)) ∧
    (∀ writeOnly noVerify,
      H.boolFromMap m lookupParamWriteOnly = (writeOnly, none) →
      H.boolFromMap m lookupParamNoVerify = (noVerify, none) →
      newLookup H name m =
        (match H.Init lookupInternal.zero m cc.autocommit
            (cc.autocommit || cc.multiShardAutocommit) cc.multiShardAutocommit with
          | (_, some err) => (none, some err)
          | (lkp, none) =>
            (some { name := name, writeOnly := writeOnly, noVerify := noVerify, lkp := lkp,
                    unknownParams := H.FindUnknownParams m (lookupParams H) }, none)) ∧
      newLookupUnique H name m =
        (match H.Init lookupInternal.zero m cc.autocommit false cc.multiShardAutocommit with
          | (_, some err) => (none, some err)
          | (lkp, none) =>
            (some { name := name, writeOnly := writeOnly, noVerify := noVerify, lkp := lkp,
                    unknownParams := H.FindUnknownParams m (lookupParams H) }, none))) ∧
    ((∀ lkp m2 autocommit upsert multiShardAutocommit,
        (H.Init lkp m2 autocommit upsert multiShardAutocommit).1.Upsert = upsert) →
      (∀ ln, newLookup H name m = (some ln, none) →
        ln.lkp.Upsert = (cc.autocommit || cc.multiShardAutocommit)) ∧
      (∀ lu, newLookupUnique H name m = (some lu, none) → lu.lkp.Upsert = false)) := by
  refine ⟨?_, ?_, ?_⟩
  · intro init2
    constructor
    · intro h
      simp only [newLookup, hcc, lookupParams, h]
    · intro h
      simp only [newLookupUnique, hcc, lookupParams, h]
  · intro writeOnly noVerify hwo hnv
    constructor
    · simp only [newLookup, hcc, hwo, hnv]
    · simp only [newLookupUnique, hcc, hwo, hnv]
  · intro hinit
    constructor
    · intro ln hln
      simp only [newLookup, hcc] at hln
      split at hln
      · simp at hln
      · split at hln
        · simp at hln
        · split at hln
          · simp at hln
          · rename_i lkp hi
            simp only [Prod.mk.injEq, Option.some.injEq, and_true] at hln
            subst hln
            have := hinit lookupInternal.zero m cc.autocommit
              (cc.autocommit || cc.multiShardAutocommit) cc.multiShardAutocommit
            rw [hi] at this
            exact this
    · intro lu hlu
      simp only [newLookupUnique, hcc] at hlu
      split at hlu
      · simp at hlu
      · split at hlu
        · simp at hlu
        · split at hlu
          · simp at hlu
          · rename_i lkp hi
            simp only [Prod.mk.injEq, Option.some.injEq, and_true] at hlu
            subst hlu
            have := hinit lookupInternal.zero m cc.autocommit false cc.multiShardAutocommit
            rw [hi] at this
            exact this

theorem constructors_upsert_asymmetry_witness :
    sampleHelpers.parseCommonConfig
        [("table", "t"), ("from", "id"), ("to", "keyspace_id"), ("autocommit", "true")]
      = (⟨true, false⟩, none) ∧
    (∃ ln, newLookup sampleHelpers "owner_idx"
        [("table", "t"), ("from", "id"), ("to", "keyspace_id"), ("autocommit", "true")]
      = (some ln, none) ∧ ln.lkp.Upsert = true ∧ ln.lkp.Autocommit = true ∧
        ln.lkp.MultiShardAutocommit = false) ∧
    (∃ lu, newLookupUnique sampleHelpers "owner_idx"
        [("table", "t"), ("from", "id"), ("to", "keyspace_id"), ("autocommit", "true")]
      = (some lu, none) ∧ lu.lkp.Upsert = false ∧ lu.lkp.Autocommit = true ∧
        lu.lkp.MultiShardAutocommit = false) := by
  have h := (constructors_upsert_asymmetry sampleHelpers "owner_idx"
    [("table", "t"), ("from", "id"), ("to", "keyspace_id"), ("autocommit", "true")]
    ⟨true, false⟩ (by decide)).2.2 (fun _ _ _ _ _ => rfl)
  refine ⟨by decide,
    ⟨{ name := "owner_idx", writeOnly := false, noVerify := false,
       lkp := { lookupInternal.zero with Table := "t", To := "keyspace_id", Autocommit := true,
                                         Upsert := true },
       unknownParams := [] }, by decide, h.1 _ (by decide), rfl, rfl⟩,
    ⟨{ name := "owner_idx", writeOnly := false, noVerify := false,
       lkp := { lookupInternal.zero with Table := "t", To := "keyspace_id", Autocommit := true },
       unknownParams := [] }, by decide, h.2 _ (by decide), rfl, rfl⟩⟩

/-! ## Planner hints -/

/-- C11: for every `LookupUnique` `lu` and every `LookupNonUnique` `ln`, whatever their
fields: `lu.Cost() = 10` and `ln.Cost() = 20`, so the unique variant costs strictly less; and
`lu.IsUnique()` is true while `ln.IsUnique()` is false. -/
theorem Cost_and_IsUnique (lu : LookupUnique) (ln : LookupNonUnique) :
    lu.Cost = 10 ∧ ln.Cost = 20 ∧ lu.Cost < ln.Cost ∧
      lu.IsUnique = true ∧ ln.IsUnique = false := by
  refine ⟨rfl, rfl, ?_, rfl, rfl⟩
  simp only [LookupUnique.Cost, LookupNonUnique.Cost]
  decide

/-- C12: `GetCommitOrder()` is `CommitOrder_NORMAL` for every `LookupUnique` and
`LookupNonUnique`; `Map` consults the engine's `Lookup` at the commit order NORMAL only (an
engine whose `Lookup` differs at the other commit orders gives the same `Map`); and `Delete`
is the engine's `Delete` called with NORMAL. -/
theorem commit_order_is_NORMAL {Value σ : Type} (S : Sqltypes Value)
    (E : lookupInternalMethods Value σ) (lu : LookupUnique) (ln : LookupNonUnique)
    (vcursor : σ) :
    lu.GetCommitOrder = CommitOrder.NORMAL ∧ ln.GetCommitOrder = CommitOrder.NORMAL ∧
    (∀ (lookup2 : lookupInternal → σ → List Value → CommitOrder →
          (List (Option (Result Value)) × Option Error) × σ),
      (∀ lkp vc ids, lookup2 lkp vc ids CommitOrder.NORMAL
          = E.Lookup lkp vc ids CommitOrder.NORMAL) →
      ∀ ids, LookupUnique.Map S { E with Lookup := lookup2 } lu vcursor ids
          = LookupUnique.Map S E lu vcursor ids ∧
        LookupNonUnique.Map S { E with Lookup := lookup2 } ln vcursor ids
          = LookupNonUnique.Map S E ln vcursor ids) ∧
    (∀ rowsColValues ksid,
      LookupUnique.Delete S E lu vcursor rowsColValues ksid
        = E.Delete lu.lkp vcursor rowsColValues (S.MakeTrustedVarBinary ksid)
            CommitOrder.NORMAL ∧
      LookupNonUnique.Delete S E ln vcursor rowsColValues ksid
        = E.Delete ln.lkp vcursor rowsColValues (S.MakeTrustedVarBinary ksid)
            CommitOrder.NORMAL) := by
  refine ⟨rfl, rfl, ?_, fun _ _ => ⟨rfl, rfl⟩⟩
  intro lookup2 h ids
  constructor
  · simp only [LookupUnique.Map, h]
  · simp only [LookupNonUnique.Map, h]

/-! ## Construction: failures and unknown parameters -/

/-- C13: for every name and option map, each constructor returns either a vindex and no
error, or nil and an error. Its error is the first failure, in the order: parsing the common
configuration, parsing `write_only`, parsing `no_verify`, the engine's `Init`; it returns a
vindex exactly when there is no such failure, and that vindex has the given name and
`writeOnly`, `noVerify` equal to the parsed values of `write_only`, `no_verify`. -/
theorem constructors_no_partial_construction (H : Helpers) (name : String) (m : ParamMap) :
    ((newLookup H name m).2 = firstFailure H m
        (fun cc => cc.autocommit || cc.multiShardAutocommit) ∧
      ((newLookup H name m).1 = none ↔ (newLookup H name m).2 ≠ none) ∧
      ∀ ln, (newLookup H name m).1 = some ln →
        ln.name = name ∧ ln.writeOnly = (H.boolFromMap m lookupParamWriteOnly).1 ∧
          ln.noVerify = (H.boolFromMap m lookupParamNoVerify).1) ∧
    ((newLookupUnique H name m).2 = firstFailure H m (fun _ => false) ∧
      ((newLookupUnique H name m).1 = none ↔ (newLookupUnique H name m).2 ≠ none) ∧
      ∀ lu, (newLookupUnique H name m).1 = some lu →
        lu.name = name ∧ lu.writeOnly = (H.boolFromMap m lookupParamWriteOnly).1 ∧
          lu.noVerify = (H.boolFromMap m lookupParamNoVerify).1) := by
  rcases hcc : H.parseCommonConfig m with ⟨cc, _ | e1⟩
  · rcases hwo : H.boolFromMap m lookupParamWriteOnly with ⟨wo, _ | e2⟩
    · rcases hnv : H.boolFromMap m lookupParamNoVerify with ⟨nv, _ | e3⟩
      · constructor
        · rcases hi : H.Init lookupInternal.zero m cc.autocommit
            (cc.autocommit || cc.multiShardAutocommit) cc.multiShardAutocommit with ⟨lkp, _ | e4⟩
          · simp [newLookup, firstFailure, hcc, hwo, hnv, hi]
          · simp [newLookup, firstFailure, hcc, hwo, hnv, hi]
        · rcases hi : H.Init lookupInternal.zero m cc.autocommit false
            cc.multiShardAutocommit with ⟨lkp, _ | e4⟩
          · simp [newLookupUnique, firstFailure, hcc, hwo, hnv, hi]
          · simp [newLookupUnique, firstFailure, hcc, hwo, hnv, hi]
      · simp [newLookup, newLookupUnique, firstFailure, hcc, hwo, hnv]
    · simp [newLookup, newLookupUnique, firstFailure, hcc, hwo]
  · simp [newLookup, newLookupUnique, firstFailure, hcc]

/-- C14: the recognised parameters `lookupParams` are `lookupCommonParams` followed by
`no_verify` and `write_only`; for every option map on which a constructor succeeds,
`UnknownParams()` of the vindex is `FindUnknownParams(m, lookupParams)`; and the outcome of
construction (vindex or nil, and the error) is the same whatever `FindUnknownParams` finds,
apart from the recorded list itself. -/
theorem unknown_params_retained (H : Helpers) (name : String) (m : ParamMap) :
    lookupParams H = H.lookupCommonParams ++ ["no_verify", "write_only"] ∧
    (∀ ln, (newLookup H name m).1 = some ln →
      ln.UnknownParams = H.FindUnknownParams m (lookupParams H)) ∧
    (∀ lu, (newLookupUnique H name m).1 = some lu →
      lu.UnknownParams = H.FindUnknownParams m (lookupParams H)) ∧
    (∀ find2 : ParamMap → List String → List String,
      (newLookup { H with FindUnknownParams := find2 } name m).2 = (newLookup H name m).2 ∧
      (newLookup { H with FindUnknownParams := find2 } name m).1.map
          (fun ln => { ln with unknownParams := [] })
        = (newLookup H name m).1.map (fun ln => { ln with unknownParams := [] }) ∧
      (newLookupUnique { H with FindUnknownParams := find2 } name m).2
        = (newLookupUnique H name m).2 ∧
      (newLookupUnique { H with FindUnknownParams := find2 } name m).1.map
          (fun lu => { lu with unknownParams := [] })
        = (newLookupUnique H name m).1.map (fun lu => { lu with unknownParams := [] })) := by
  refine ⟨by simp [lookupParams, lookupParamNoVerify, lookupParamWriteOnly], ?_, ?_, ?_⟩
  · intro ln h
    simp only [newLookup] at h
    split at h
    · simp at h
    · split at h
      · simp at h
      · split at h
        · simp at h
        · split at h
          · simp at h
          · simp only [Option.some.injEq] at h
            subst h
            rfl
  · intro lu h
    simp only [newLookupUnique] at h
    split at h
    · simp at h
    · split at h
      · simp at h
      · split at h
        · simp at h
        · split at h
          · simp at h
          · simp only [Option.some.injEq] at h
            subst h
            rfl
  · intro find2
    rcases hcc : H.parseCommonConfig m with ⟨cc, _ | e1⟩
    · rcases hwo : H.boolFromMap m lookupParamWriteOnly with ⟨wo, _ | e2⟩
      · rcases hnv : H.boolFromMap m lookupParamNoVerify with ⟨nv, _ | e3⟩
        · refine ⟨?_, ?_, ?_, ?_⟩
          · rcases hi : H.Init lookupInternal.zero m cc.autocommit
              (cc.autocommit || cc.multiShardAutocommit) cc.multiShardAutocommit
              with ⟨lkp, _ | e4⟩ <;> simp [newLookup, hcc, hwo, hnv, hi]
          · rcases hi : H.Init lookupInternal.zero m cc.autocommit
              (cc.autocommit || cc.multiShardAutocommit) cc.multiShardAutocommit
              with ⟨lkp, _ | e4⟩ <;> simp [newLookup, hcc, hwo, hnv, hi]
          · rcases hi : H.Init lookupInternal.zero m cc.autocommit false
              cc.multiShardAutocommit with ⟨lkp, _ | e4⟩ <;>
              simp [newLookupUnique, hcc, hwo, hnv, hi]
          · rcases hi : H.Init lookupInternal.zero m cc.autocommit false
              cc.multiShardAutocommit with ⟨lkp, _ | e4⟩ <;>
              simp [newLookupUnique, hcc, hwo, hnv, hi]
        · simp [newLookup, newLookupUnique, hcc, hwo, hnv]
      · simp [newLookup, newLookupUnique, hcc, hwo]
    · simp [newLookup, newLookupUnique, hcc]

/-! ## The write-only flag across operations -/

theorem LookupNonUnique_perform_frame {Value σ : Type} (S : Sqltypes Value)
    (E : lookupInternalMethods Value σ) (engineWrites : lookupInternal → σ → lookupInternal)
    (ln : LookupNonUnique) (vcursor : σ) (op : NonUniqueOperation Value) :
    (LookupNonUnique.perform S E engineWrites ln vcursor op).1.writeOnly = ln.writeOnly ∧
    (LookupNonUnique.perform S E engineWrites ln vcursor op).1.name = ln.name ∧
    (LookupNonUnique.perform S E engineWrites ln vcursor op).1.noVerify = ln.noVerify ∧
    (LookupNonUnique.perform S E engineWrites ln vcursor op).1.unknownParams
      = ln.unknownParams := by
  cases op <;> simp only [LookupNonUnique.perform] <;> (repeat' split) <;> simp

theorem LookupUnique_perform_frame {Value σ : Type} (S : Sqltypes Value)
    (E : lookupInternalMethods Value σ) (engineWrites : lookupInternal → σ → lookupInternal)
    (lu : LookupUnique) (vcursor : σ) (op : UniqueOperation Value) :
    (LookupUnique.perform S E engineWrites lu vcursor op).1.writeOnly = lu.writeOnly ∧
    (LookupUnique.perform S E engineWrites lu vcursor op).1.name = lu.name ∧
    (LookupUnique.perform S E engineWrites lu vcursor op).1.noVerify = lu.noVerify ∧
    (LookupUnique.perform S E engineWrites lu vcursor op).1.unknownParams
      = lu.unknownParams := by
  cases op <;> simp only [LookupUnique.perform] <;> (repeat' split) <;> simp

theorem LookupNonUnique_performAll_frame {Value σ : Type} (S : Sqltypes Value)
    (E : lookupInternalMethods Value σ) (engineWrites : lookupInternal → σ → lookupInternal)
    (ops : List (NonUniqueOperation Value)) (state : LookupNonUnique × σ) :
    (LookupNonUnique.performAll S E engineWrites ops state).1.writeOnly = state.1.writeOnly ∧
    (LookupNonUnique.performAll S E engineWrites ops state).1.name = state.1.name ∧
    (LookupNonUnique.performAll S E engineWrites ops state).1.noVerify = state.1.noVerify ∧
    (LookupNonUnique.performAll S E engineWrites ops state).1.unknownParams
      = state.1.unknownParams := by
  induction ops generalizing state with
  | nil => simp [LookupNonUnique.performAll]
  | cons op ops ih =>
    obtain ⟨h1, h2, h3, h4⟩ := ih (LookupNonUnique.perform S E engineWrites state.1 state.2 op)
    obtain ⟨g1, g2, g3, g4⟩ := LookupNonUnique_perform_frame S E engineWrites state.1 state.2 op
    simp only [LookupNonUnique.performAll]
    exact ⟨h1.trans g1, h2.trans g2, h3.trans g3, h4.trans g4⟩

theorem LookupUnique_performAll_frame {Value σ : Type} (S : Sqltypes Value)
    (E : lookupInternalMethods Value σ) (engineWrites : lookupInternal → σ → lookupInternal)
    (ops : List (UniqueOperation Value)) (state : LookupUnique × σ) :
    (LookupUnique.performAll S E engineWrites ops state).1.writeOnly = state.1.writeOnly ∧
    (LookupUnique.performAll S E engineWrites ops state).1.name = state.1.name ∧
    (LookupUnique.performAll S E engineWrites ops state).1.noVerify = state.1.noVerify ∧
    (LookupUnique.performAll S E engineWrites ops state).1.unknownParams
      = state.1.unknownParams := by
  induction ops generalizing state with
  | nil => simp [LookupUnique.performAll]
  | cons op ops ih =>
    obtain ⟨h1, h2, h3, h4⟩ := ih (LookupUnique.perform S E engineWrites state.1 state.2 op)
    obtain ⟨g1, g2, g3, g4⟩ := LookupUnique_perform_frame S E engineWrites state.1 state.2 op
    simp only [LookupUnique.performAll]
    exact ⟨h1.trans g1, h2.trans g2, h3.trans g3, h4.trans g4⟩

theorem newLookup_writeOnly (H : Helpers) (name : String) (m : ParamMap) (ln : LookupNonUnique)
    (h : (newLookup H name m).1 = some ln) :
    ln.writeOnly = (H.boolFromMap m lookupParamWriteOnly).1 := by
  rcases hcc : H.parseCommonConfig m with ⟨cc, _ | e1⟩
  · rcases hwo : H.boolFromMap m lookupParamWriteOnly with ⟨wo, _ | e2⟩
    · rcases hnv : H.boolFromMap m lookupParamNoVerify with ⟨nv, _ | e3⟩
      · rcases hi : H.Init lookupInternal.zero m cc.autocommit
          (cc.autocommit || cc.multiShardAutocommit) cc.multiShardAutocommit with ⟨lkp, _ | e4⟩
        · simp only [newLookup, hcc, hwo, hnv, hi, Option.some.injEq] at h
          subst h
          rfl
        · simp [newLookup, hcc, hwo, hnv, hi] at h
      · simp [newLookup, hcc, hwo, hnv] at h
    · simp [newLookup, hcc, hwo] at h
  · simp [newLookup, hcc] at h

theorem newLookupUnique_writeOnly (H : Helpers) (name : String) (m : ParamMap)
    (lu : LookupUnique) (h : (newLookupUnique H name m).1 = some lu) :
    lu.writeOnly = (H.boolFromMap m lookupParamWriteOnly).1 := by
  rcases hcc : H.parseCommonConfig m with ⟨cc, _ | e1⟩
  · rcases hwo : H.boolFromMap m lookupParamWriteOnly with ⟨wo, _ | e2⟩
    · rcases hnv : H.boolFromMap m lookupParamNoVerify with ⟨nv, _ | e3⟩
      · rcases hi : H.Init lookupInternal.zero m cc.autocommit false
          cc.multiShardAutocommit with ⟨lkp, _ | e4⟩
        · simp only [newLookupUnique, hcc, hwo, hnv, hi, Option.some.injEq] at h
          subst h
          rfl
        · simp [newLookupUnique, hcc, hwo, hnv, hi] at h
      · simp [newLookupUnique, hcc, hwo, hnv] at h
    · simp [newLookupUnique, hcc, hwo] at h
  · simp [newLookupUnique, hcc] at h

/-- C15: no method performs the backfill transition. For both variants, after any sequence
of calls of any methods (accessors, `Map`, `MapResult`, `Verify`, `Create`, `Update`, `Delete`,
`Query`, `MarshalJSON`), whatever the engine does and whatever it writes into its own struct,
the receiver's `writeOnly`, `name`, `noVerify` and `unknownParams` are what they were, so
`IsBackfilling()` is unchanged; for a vindex returned by a constructor it is still the parsed
value of `write_only`. -/
theorem operations_keep_writeOnly {Value σ : Type} (S : Sqltypes Value)
    (E : lookupInternalMethods Value σ) (engineWrites : lookupInternal → σ → lookupInternal)
    (lu : LookupUnique) (ln : LookupNonUnique) (vcursor : σ)
    (uops : List (UniqueOperation Value)) (nops : List (NonUniqueOperation Value)) :
    ((LookupUnique.performAll S E engineWrites uops (lu, vcursor)).1.writeOnly = lu.writeOnly ∧
      (LookupUnique.performAll S E engineWrites uops (lu, vcursor)).1.name = lu.name ∧
      (LookupUnique.performAll S E engineWrites uops (lu, vcursor)).1.noVerify = lu.noVerify ∧
      (LookupUnique.performAll S E engineWrites uops (lu, vcursor)).1.unknownParams
        = lu.unknownParams ∧
      (LookupUnique.performAll S E engineWrites uops (lu, vcursor)).1.IsBackfilling
        = lu.IsBackfilling ∧
      ∀ H name m, (newLookupUnique H name m).1 = some lu →
        (LookupUnique.performAll S E engineWrites uops (lu, vcursor)).1.IsBackfilling
          = (H.boolFromMap m lookupParamWriteOnly).1) ∧
    ((LookupNonUnique.performAll S E engineWrites nops (ln, vcursor)).1.writeOnly
        = ln.writeOnly ∧
      (LookupNonUnique.performAll S E engineWrites nops (ln, vcursor)).1.name = ln.name ∧
      (LookupNonUnique.performAll S E engineWrites nops (ln, vcursor)).1.noVerify
        = ln.noVerify ∧
      (LookupNonUnique.performAll S E engineWrites nops (ln, vcursor)).1.unknownParams
        = ln.unknownParams ∧
      (LookupNonUnique.performAll S E engineWrites nops (ln, vcursor)).1.IsBackfilling
        = ln.IsBackfilling ∧
      ∀ H name m, (newLookup H name m).1 = some ln →
        (LookupNonUnique.performAll S E engineWrites nops (ln, vcursor)).1.IsBackfilling
          = (H.boolFromMap m lookupParamWriteOnly).1) := by
  obtain ⟨u1, u2, u3, u4⟩ := LookupUnique_performAll_frame S E engineWrites uops (lu, vcursor)
  obtain ⟨n1, n2, n3, n4⟩ := LookupNonUnique_performAll_frame S E engineWrites nops (ln, vcursor)
  refine ⟨⟨u1, u2, u3, u4, ?_, ?_⟩, ⟨n1, n2, n3, n4, ?_, ?_⟩⟩
  · simp only [LookupUnique.IsBackfilling]
    exact u1
  · intro H name m h
    simp only [LookupUnique.IsBackfilling]
    exact u1.trans (newLookupUnique_writeOnly H name m lu h)
  · simp only [LookupNonUnique.IsBackfilling]
    exact n1
  · intro H name m h
    simp only [LookupNonUnique.IsBackfilling]
    exact n1.trans (newLookup_writeOnly H name m ln h)

theorem operations_keep_writeOnly_witness :
    LookupUnique.performAll sampleSqltypes failingEngine
        (fun lkp calls => { lkp with Table := "rewritten", sel := Nat.repr calls })
        [UniqueOperation.Map [SampleValue.INT64 1],
          UniqueOperation.Create [[SampleValue.INT64 1]] [[128]] false,
          UniqueOperation.Verify [SampleValue.INT64 1] [[128]], UniqueOperation.IsBackfilling]
        (sampleUnique "owner_idx" "t" true false, 0)
      = ({ sampleUnique "owner_idx" "rewritten" true false with
            lkp := { lookupInternal.zero with Table := "rewritten", sel := "0" } }, 1) ∧
    (LookupUnique.performAll sampleSqltypes failingEngine
        (fun lkp calls => { lkp with Table := "rewritten", sel := Nat.repr calls })
        [UniqueOperation.Map [SampleValue.INT64 1],
          UniqueOperation.Create [[SampleValue.INT64 1]] [[128]] false,
          UniqueOperation.Verify [SampleValue.INT64 1] [[128]], UniqueOperation.IsBackfilling]
        (sampleUnique "owner_idx" "t" true false, 0)).1.IsBackfilling = true :=
  ⟨by decide,
    (operations_keep_writeOnly sampleSqltypes failingEngine
      (fun lkp calls => { lkp with Table := "rewritten", sel := Nat.repr calls })
      (sampleUnique "owner_idx" "t" true false)
      (sampleNonUnique "owner_idx" "t" true false false) 0
      [UniqueOperation.Map [SampleValue.INT64 1],
        UniqueOperation.Create [[SampleValue.INT64 1]] [[128]] false,
        UniqueOperation.Verify [SampleValue.INT64 1] [[128]], UniqueOperation.IsBackfilling]
      []).1.2.2.2.2.1⟩

/-! ## MapResult in write-only mode -/

theorem unique_loop_congr {Value : Type} (S : Sqltypes Value) (lu lu2 : LookupUnique)
    (ids : List Value) (results : List (Option (Result Value))) (i : Nat)
    (out : List ShardDestination) (h : lu.lkp = lu2.lkp) :
    LookupUnique.MapResult.loop S lu ids i results out
      = LookupUnique.MapResult.loop S lu2 ids i results out := by
  induction results generalizing i out with
  | nil => simp [LookupUnique.MapResult.loop]
  | cons res rest ih =>
    cases res with
    | none => simp [LookupUnique.MapResult.loop]
    | some r =>
      obtain ⟨rows⟩ := r
      rcases rows with _ | ⟨row, _ | ⟨row2, more⟩⟩
      · simp only [LookupUnique.MapResult.loop]
        exact ih _ _
      · cases row with
        | nil => simp [LookupUnique.MapResult.loop]
        | cons v cols =>
          simp only [LookupUnique.MapResult.loop]
          split
          · rfl
          · exact ih _ _
      · simp only [LookupUnique.MapResult.loop, LookupUnique.MapResult.errorf, h]

/-- C16: the two `MapResult` treat write-only mode differently. For every `LookupNonUnique`
with `writeOnly = true`, `MapResult(ids, results)` returns `len(ids)` full key ranges and no
error, for results of any length and content. For every `LookupUnique`, `MapResult` returns
the same with `writeOnly` true as with `writeOnly` false: with `writeOnly = true`, for one id
and a one-row result whose first column converts it returns `DestinationKeyspaceID`, and for one
id and a result of two or more rows it returns the multiple-results error. -/
theorem MapResult_writeOnly_asymmetry {Value : Type} (S : Sqltypes Value)
    (lu : LookupUnique) (ln : LookupNonUnique) (ids : List Value)
    (results : List (Option (Result Value))) (hn : ln.writeOnly = true) :
    LookupNonUnique.MapResult S ln ids results
      = Run.ret (some (List.replicate ids.length
          (ShardDestination.DestinationKeyRange ⟨[], []⟩)), none) ∧
    LookupUnique.MapResult S { lu with writeOnly := true } ids results
      = LookupUnique.MapResult S { lu with writeOnly := false } ids results ∧
    (∀ id v cols, (S.ToBytes v).2 = none →
      LookupUnique.MapResult S { lu with writeOnly := true } [id] [some ⟨[v :: cols]⟩]
        = Run.ret (some [ShardDestination.DestinationKeyspaceID (S.ToBytes v).1], none)) ∧
    (∀ id row1 row2 more,
      LookupUnique.MapResult S { lu with writeOnly := true } [id]
          [some ⟨row1 :: row2 :: more⟩]
        = Run.ret (none, some ⟨"Lookup.Map: unexpected multiple results from vindex "
            ++ lu.lkp.Table ++ ": " ++ S.String id⟩)) := by
  refine ⟨?_, ?_, ?_, ?_⟩
  · simp only [LookupNonUnique.MapResult, hn, if_true, appendKeyRanges_eq, fullKeyRange]
  · exact unique_loop_congr S _ _ ids results 0 [] rfl
  · intro id v cols hv
    have hb : S.ToBytes v = ((S.ToBytes v).1, none) := by
      rw [← hv]
    simp only [LookupUnique.MapResult, LookupUnique.MapResult.loop]
    rw [hb]
    simp
  · intro id row1 row2 more
    simp [LookupUnique.MapResult, LookupUnique.MapResult.loop, LookupUnique.MapResult.errorf]

theorem MapResult_writeOnly_asymmetry_witness :
    (sampleNonUnique "owner_idx" "t" true false false).writeOnly = true ∧
    LookupNonUnique.MapResult sampleSqltypes (sampleNonUnique "owner_idx" "t" true false false)
        [SampleValue.INT64 1, SampleValue.INT64 2]
        [none, some ⟨[[]]⟩, some ⟨[[SampleValue.EXPRESSION]]⟩]
      = Run.ret (some [ShardDestination.DestinationKeyRange ⟨[], []⟩,
          ShardDestination.DestinationKeyRange ⟨[], []⟩], none) ∧
    LookupUnique.MapResult sampleSqltypes (sampleUnique "owner_idx" "t" true false)
        [SampleValue.INT64 1] [some ⟨[[SampleValue.VARBINARY [128]]]⟩]
      = Run.ret (some [ShardDestination.DestinationKeyspaceID [128]], none) ∧
    LookupUnique.MapResult sampleSqltypes (sampleUnique "owner_idx" "t" true false)
        [SampleValue.INT64 1]
        [some ⟨[[SampleValue.VARBINARY [128]], [SampleValue.VARBINARY [64]]]⟩]
      = Run.ret (none,
          some ⟨"Lookup.Map: unexpected multiple results from vindex t: INT64(1)"⟩) :=
  ⟨rfl,
    (MapResult_writeOnly_asymmetry sampleSqltypes (sampleUnique "owner_idx" "t" true false)
      (sampleNonUnique "owner_idx" "t" true false false)
      [SampleValue.INT64 1, SampleValue.INT64 2]
      [none, some ⟨[[]]⟩, some ⟨[[SampleValue.EXPRESSION]]⟩] rfl).1,
    (MapResult_writeOnly_asymmetry sampleSqltypes (sampleUnique "owner_idx" "t" true false)
      (sampleNonUnique "owner_idx" "t" true false false) [] [] rfl).2.2.1
      (SampleValue.INT64 1) (SampleValue.VARBINARY [128]) [] rfl,
    (MapResult_writeOnly_asymmetry sampleSqltypes (sampleUnique "owner_idx" "t" true false)
      (sampleNonUnique "owner_idx" "t" true false false) [] [] rfl).2.2.2
      (SampleValue.INT64 1) [SampleValue.VARBINARY [128]] [SampleValue.VARBINARY [64]] []⟩

/-! ## Index safety of MapResult -/

theorem unique_loop_safe {Value : Type} (S : Sqltypes Value) (lu : LookupUnique)
    (ids : List Value) (results : List (Option (Result Value))) (i : Nat)
    (out : List ShardDestination)
    (hidx : ∀ res ∈ results, resultIndexable res = true)
    (hlen : i + results.length ≤ ids.length) :
    ∃ r, LookupUnique.MapResult.loop S lu ids i results out = Run.ret r ∧
      (r.2 = none → ∃ o, r.1 = some o ∧ o.length = out.length + results.length) := by
  induction results generalizing i out with
  | nil => exact ⟨(some out, none), by simp [LookupUnique.MapResult.loop], fun _ => ⟨out, rfl, by simp⟩⟩
  | cons res rest ih =>
    have hres := hidx res (List.mem_cons_self _ _)
    have hrest : ∀ x ∈ rest, resultIndexable x = true :=
      fun x hx => hidx x (List.mem_cons_of_mem _ hx)
    simp only [List.length_cons] at hlen
    cases res with
    | none => simp [resultIndexable] at hres
    | some r =>
      obtain ⟨rows⟩ := r
      rcases rows with _ | ⟨row, _ | ⟨row2, more⟩⟩
      · obtain ⟨r, hr, hs⟩ := ih (i + 1) (out ++ [ShardDestination.DestinationNone]) hrest
          (by omega)
        refine ⟨r, by simp only [LookupUnique.MapResult.loop, hr], ?_⟩
        intro h
        obtain ⟨o, ho, hl⟩ := hs h
        exact ⟨o, ho, by simp only [List.length_append, List.length_cons, List.length_nil] at hl ⊢; omega⟩
      · cases row with
        | nil => simp [resultIndexable] at hres
        | cons v cols =>
          rcases hb : S.ToBytes v with ⟨rowBytes, _ | err⟩
          · obtain ⟨r, hr, hs⟩ := ih (i + 1)
              (out ++ [ShardDestination.DestinationKeyspaceID rowBytes]) hrest (by omega)
            refine ⟨r, by simp only [LookupUnique.MapResult.loop, hb, hr], ?_⟩
            intro h
            obtain ⟨o, ho, hl⟩ := hs h
            exact ⟨o, ho, by simp only [List.length_append, List.length_cons, List.length_nil] at hl ⊢; omega⟩
          · exact ⟨(none, some err), by simp only [LookupUnique.MapResult.loop, hb],
              fun h => by simp at h⟩
      · have hi : i < ids.length := by omega
        refine ⟨(none, some (LookupUnique.MapResult.errorf S lu (ids.get ⟨i, hi⟩))), ?_,
          fun h => by simp at h⟩
        simp [LookupUnique.MapResult.loop, List.getElem?_eq_getElem hi]

theorem nonUnique_rows_safe {Value : Type} (S : Sqltypes Value) (rows : List (List Value))
    (ksids : List Bytes) (hidx : rows.all (fun row => !row.isEmpty) = true) :
    ∃ r, LookupNonUnique.MapResult.rows S rows ksids = Run.ret r := by
  induction rows generalizing ksids with
  | nil => exact ⟨(ksids, none), by simp [LookupNonUnique.MapResult.rows]⟩
  | cons row rest ih =>
    simp only [List.all_cons, Bool.and_eq_true] at hidx
    obtain ⟨hrow, hrest⟩ := hidx
    cases row with
    | nil => simp at hrow
    | cons v cols =>
      rcases hb : S.ToBytes v with ⟨rowBytes, _ | err⟩
      · obtain ⟨r, hr⟩ := ih (ksids ++ [rowBytes]) hrest
        exact ⟨r, by simp only [LookupNonUnique.MapResult.rows, hb, hr]⟩
      · exact ⟨(ksids, some err), by simp only [LookupNonUnique.MapResult.rows, hb]⟩

theorem nonUnique_loop_safe {Value : Type} (S : Sqltypes Value)
    (results : List (Option (Result Value))) (out : List ShardDestination)
    (hidx : ∀ res ∈ results, resultIndexable res = true) :
    ∃ r, LookupNonUnique.MapResult.loop S results out = Run.ret r ∧
      (r.2 = none → ∃ o, r.1 = some o ∧ o.length = out.length + results.length) := by
  induction results generalizing out with
  | nil =>
    exact ⟨(some out, none), by simp [LookupNonUnique.MapResult.loop],
      fun _ => ⟨out, rfl, by simp⟩⟩
  | cons res rest ih =>
    have hres := hidx res (List.mem_cons_self _ _)
    have hrest : ∀ x ∈ rest, resultIndexable x = true :=
      fun x hx => hidx x (List.mem_cons_of_mem _ hx)
    cases res with
    | none => simp [resultIndexable] at hres
    | some r =>
      obtain ⟨rows⟩ := r
      cases rows with
      | nil =>
        obtain ⟨r, hr, hs⟩ := ih (out ++ [ShardDestination.DestinationNone]) hrest
        refine ⟨r, by simp only [LookupNonUnique.MapResult.loop, List.length_nil, if_true, hr], ?_⟩
        intro h
        obtain ⟨o, ho, hl⟩ := hs h
        exact ⟨o, ho, by simp only [List.length_append, List.length_cons, List.length_nil] at hl ⊢; omega⟩
      | cons row more =>
        simp only [resultIndexable] at hres
        obtain ⟨rr, hrr⟩ := nonUnique_rows_safe S (row :: more) [] hres
        obtain ⟨ksids, _ | err⟩ := rr
        · obtain ⟨r, hr, hs⟩ := ih (out ++ [ShardDestination.DestinationKeyspaceIDs ksids]) hrest
          refine ⟨r, by simp only [LookupNonUnique.MapResult.loop, List.length_cons,
            Nat.add_one_ne_zero, if_false, hrr, hr], ?_⟩
          intro h
          obtain ⟨o, ho, hl⟩ := hs h
          exact ⟨o, ho, by simp only [List.length_append, List.length_cons, List.length_nil] at hl ⊢; omega⟩
        · exact ⟨(none, some err), by simp only [LookupNonUnique.MapResult.loop, List.length_cons,
            Nat.add_one_ne_zero, if_false, hrr], fun h => by simp at h⟩

/-- C17 as stated fails: a write-only `LookupNonUnique` given two ids and one (empty) result
set meets the precondition, and `MapResult` returns without error two destinations, one per
id, not one per result set. -/
theorem LookupNonUnique_MapResult_length_counterexample :
    ([some ⟨[]⟩] : List (Option (Result SampleValue))).length
      ≤ [SampleValue.INT64 1, SampleValue.INT64 2].length ∧
    (∀ res ∈ ([some ⟨[]⟩] : List (Option (Result SampleValue))), resultIndexable res = true) ∧
    LookupNonUnique.MapResult sampleSqltypes (sampleNonUnique "owner_idx" "t" true false false)
        [SampleValue.INT64 1, SampleValue.INT64 2] [some ⟨[]⟩]
      = Run.ret (some [ShardDestination.DestinationKeyRange ⟨[], []⟩,
          ShardDestination.DestinationKeyRange ⟨[], []⟩], none) ∧
    [ShardDestination.DestinationKeyRange ⟨[], []⟩,
        ShardDestination.DestinationKeyRange ⟨[], []⟩].length
      ≠ ([some ⟨[]⟩] : List (Option (Result SampleValue))).length := by
  decide

/-- C17, amended: for both variants, when `len(results) <= len(ids)`, no result is nil and
every row of every result has at least one column, `MapResult` returns (no index is out of
range, no nil is dereferenced); on success the unique variant returns exactly `len(results)`
destinations, and the non-unique variant returns `len(results)` destinations when it is not
write-only and `len(ids)` when it is. Without `len(results) <= len(ids)` the unique variant
can read `ids[i]` past the end: with no ids and a result of two or more rows it panics. -/
theorem MapResult_index_safety {Value : Type} (S : Sqltypes Value) (lu : LookupUnique)
    (ln : LookupNonUnique) (ids : List Value) (results : List (Option (Result Value)))
    (hlen : results.length ≤ ids.length)
    (hidx : ∀ res ∈ results, resultIndexable res = true) :
    (∃ r, LookupUnique.MapResult S lu ids results = Run.ret r ∧
      (r.2 = none → ∃ out, r.1 = some out ∧ out.length = results.length)) ∧
    (∃ r, LookupNonUnique.MapResult S ln ids results = Run.ret r ∧
      (r.2 = none → ∃ out, r.1 = some out ∧
        out.length = if ln.writeOnly = true then ids.length else results.length)) ∧
    (∀ row1 row2 more, LookupUnique.MapResult S lu [] [some ⟨row1 :: row2 :: more⟩]
      = Run.panic (Panic.indexOutOfRange 0 0)) := by
  refine ⟨?_, ?_, ?_⟩
  · obtain ⟨r, hr, hs⟩ := unique_loop_safe S lu ids results 0 [] hidx (by omega)
    refine ⟨r, hr, ?_⟩
    intro h
    obtain ⟨o, ho, hl⟩ := hs h
    exact ⟨o, ho, by simpa using hl⟩
  · cases hw : ln.writeOnly with
    | true =>
      refine ⟨(some (appendKeyRanges ids), none), by simp [LookupNonUnique.MapResult, hw], ?_⟩
      intro _
      exact ⟨_, rfl, by simp [appendKeyRanges_eq]⟩
    | false =>
      obtain ⟨r, hr, hs⟩ := nonUnique_loop_safe S results [] hidx
      refine ⟨r, by simp [LookupNonUnique.MapResult, hw, hr], ?_⟩
      intro h
      obtain ⟨o, ho, hl⟩ := hs h
      exact ⟨o, ho, by simpa using hl⟩
  · intro row1 row2 more
    simp [LookupUnique.MapResult, LookupUnique.MapResult.loop]

theorem MapResult_index_safety_witness :
    ([some ⟨[[SampleValue.VARBINARY [128]]]⟩, some ⟨[]⟩] :
        List (Option (Result SampleValue))).length
      ≤ [SampleValue.INT64 1, SampleValue.INT64 2, SampleValue.INT64 3].length ∧
    (∀ res ∈ ([some ⟨[[SampleValue.VARBINARY [128]]]⟩, some ⟨[]⟩] :
        List (Option (Result SampleValue))), resultIndexable res = true) ∧
    (∃ r, LookupUnique.MapResult sampleSqltypes (sampleUnique "owner_idx" "t" false false)
        [SampleValue.INT64 1, SampleValue.INT64 2, SampleValue.INT64 3]
        [some ⟨[[SampleValue.VARBINARY [128]]]⟩, some ⟨[]⟩] = Run.ret r) ∧
    (∃ r, LookupNonUnique.MapResult sampleSqltypes
        (sampleNonUnique "owner_idx" "t" false false false)
        [SampleValue.INT64 1, SampleValue.INT64 2, SampleValue.INT64 3]
        [some ⟨[[SampleValue.VARBINARY [128]]]⟩, some ⟨[]⟩] = Run.ret r) ∧
    LookupUnique.MapResult sampleSqltypes (sampleUnique "owner_idx" "t" false false) []
        [some ⟨[[SampleValue.VARBINARY [128]], [SampleValue.VARBINARY [64]]]⟩]
      = Run.panic (Panic.indexOutOfRange 0 0) := by
  obtain ⟨⟨r1, h1, _⟩, ⟨r2, h2, _⟩, h3⟩ := MapResult_index_safety sampleSqltypes
    (sampleUnique "owner_idx" "t" false false)
    (sampleNonUnique "owner_idx" "t" false false false)
    [SampleValue.INT64 1, SampleValue.INT64 2, SampleValue.INT64 3]
    [some ⟨[[SampleValue.VARBINARY [128]]]⟩, some ⟨[]⟩] (by decide) (by decide)
  exact ⟨by decide, by decide, ⟨r1, h1⟩, ⟨r2, h2⟩,
    h3 [SampleValue.VARBINARY [128]] [SampleValue.VARBINARY [64]] []⟩

end vindexes
